import Mathlib

/-!
# Verification of the Swym wishlist icon injector (`src/inherit-styling.js`)

A shallow embedding of the `WishlistInjectorPOC` class.  The live DOM is
modelled as a tree of elements (`Elem`), rendered-layout measurements
(`getBBox`, `getBoundingClientRect`, `getComputedStyle`) are supplied by an
environment record (`MeasEnv`), and JavaScript numbers are modelled as
rationals (division by zero yields `0` in `ℚ`; the JS counterpart yields a
non-finite value, and every place the source consumes such a quotient it
immediately discards non-finite *and* non-positive values through the same
fallback branch, so the two models agree on all the guarded paths).
-/

namespace Swym

/-! ## String utilities (JS primitives re-implemented over character lists) -/

/-- The whitespace class used by JS `\s`, `String.prototype.trim` and
`Number` coercion, restricted to the ASCII range (the source never feeds
non-ASCII whitespace to these primitives). -/
def jsIsSpace (c : Char) : Bool :=
  c == ' ' || c == '\t' || c == '\n' || c == '\r' || c == '\x0b' || c == '\x0c'

/-- `leadsWith pat cs` : `pat` is an initial segment of `cs`. -/
def leadsWith : List Char → List Char → Bool
  | [], _ => true
  | _ :: _, [] => false
  | a :: as, b :: bs => a == b && leadsWith as bs

/-- `hasSub pat cs` : `pat` occurs contiguously inside `cs`. -/
def hasSub (pat : List Char) : List Char → Bool
  | [] => leadsWith pat []
  | c :: rest => leadsWith pat (c :: rest) || hasSub pat rest

/-- JS `s.includes(pat)` / `s.indexOf(pat) !== -1` for the string literals the
source uses (all non-empty). -/
def strContains (s pat : String) : Bool :=
  hasSub pat.toList s.toList

/-- JS `String.prototype.trim` (ASCII whitespace). -/
def jsTrim (s : String) : String :=
  String.mk (((s.toList.dropWhile jsIsSpace).reverse.dropWhile jsIsSpace).reverse)

def asciiLowerChar (c : Char) : Char :=
  if 'A' ≤ c && c ≤ 'Z' then Char.ofNat (c.toNat + 32) else c

/-- JS `String.prototype.toLowerCase` on the ASCII strings (tag names, class
tokens) the source applies it to. -/
def asciiLower (s : String) : String := String.mk (s.toList.map asciiLowerChar)

/-- Numeric value of a list of decimal digit characters. -/
def digitsVal (cs : List Char) : ℕ :=
  cs.foldl (fun a c => a * 10 + (c.toNat - 48)) 0

/-- JS `Number(string)` on the grammar the source can meet: optional sign,
decimal digits, optional fraction.  Returns `none` for NaN.  (The exotic
accepted forms — exponents, hex, `Infinity` — are not modelled; `Infinity`
would be accepted by the source's `!isNaN` filter but cannot arise from the
viewBox strings considered here.) -/
def jsNumber (s : String) : Option ℚ :=
  let t := (s.toList.dropWhile jsIsSpace).reverse.dropWhile jsIsSpace |>.reverse
  if t = [] then some 0 else
  let (sign, cs) : ℚ × List Char :=
    match t with
    | '-' :: r => (-1, r)
    | '+' :: r => (1, r)
    | r => (1, r)
  let ip := cs.takeWhile Char.isDigit
  let rest := cs.dropWhile Char.isDigit
  match rest with
  | [] => if ip = [] then none else some (sign * (digitsVal ip : ℚ))
  | '.' :: frac =>
    if frac.all Char.isDigit && !(ip = [] && frac = []) then
      some (sign * ((digitsVal ip : ℚ) + (digitsVal frac : ℚ) / 10 ^ frac.length))
    else none
  | _ => none

/-- JS `parseFloat`: longest numeric initial segment after leading whitespace
(`"1.5px"` parses to `1.5`); `none` for NaN.  Exponents are not modelled. -/
def jsParseFloat (s : String) : Option ℚ :=
  let cs := s.toList.dropWhile jsIsSpace
  let (sign, cs) : ℚ × List Char :=
    match cs with
    | '-' :: r => (-1, r)
    | '+' :: r => (1, r)
    | r => (1, r)
  let ip := cs.takeWhile Char.isDigit
  let rest := cs.dropWhile Char.isDigit
  match rest with
  | '.' :: frac =>
    let fp := frac.takeWhile Char.isDigit
    if ip = [] && fp = [] then none
    else some (sign * ((digitsVal ip : ℚ) + (digitsVal fp : ℚ) / 10 ^ fp.length))
  | _ => if ip = [] then none else some (sign * (digitsVal ip : ℚ))

/-- Splitting by the regex `/\s+|,/` (used on viewBox strings): a maximal run
of whitespace, or a single comma, ends the current piece.  The alternation
tries `\s+` first, exactly as the greedy regex does. -/
def splitWSCommaAux : List Char → List Char → List String
  | [], acc => [String.mk acc.reverse]
  | c :: rest, acc =>
    if jsIsSpace c then
      String.mk acc.reverse :: splitWSCommaAux (rest.dropWhile jsIsSpace) []
    else if c == ',' then
      String.mk acc.reverse :: splitWSCommaAux rest []
    else
      splitWSCommaAux rest (c :: acc)
termination_by l _ => l.length
decreasing_by
  all_goals simp_wf
  exact Nat.lt_succ_of_le (List.Sublist.length_le (List.dropWhile_sublist _))

def splitWSComma (s : String) : List String := splitWSCommaAux s.toList []

/-- Splitting a class attribute value on whitespace, dropping empty pieces
(the first half of the DOM "ordered set parser"). -/
def splitWsAux : List Char → List Char → List String
  | [], acc => if acc = [] then [] else [String.mk acc.reverse]
  | c :: rest, acc =>
    if jsIsSpace c then
      if acc = [] then splitWsAux rest []
      else String.mk acc.reverse :: splitWsAux rest []
    else
      splitWsAux rest (c :: acc)

def splitWsTokens (s : String) : List String := splitWsAux s.toList []

/-- Second half of the ordered set parser: keep the first occurrence of each
token. -/
def dedupAux (seen : List String) : List String → List String
  | [] => []
  | x :: xs => if seen.contains x then dedupAux seen xs else x :: dedupAux (x :: seen) xs

def dedupKeepFirst (l : List String) : List String := dedupAux [] l

/-- Serialization of an ordered set of tokens. -/
def joinSpace (l : List String) : String := String.intercalate " " l

/-! ## JS numeric helpers -/

/-- `Math.round` (half rounds toward `+∞`). -/
def jsRound (x : ℚ) : ℚ := (⌊x + 1 / 2⌋ : ℤ)

/-- A rendered rectangle / box: `getBBox` or `getBoundingClientRect` result. -/
structure Rect where
  x : ℚ
  y : ℚ
  w : ℚ
  h : ℚ
deriving DecidableEq

/-- JS truthiness of a possibly-missing number (`null`, `0` and `NaN` are
falsy; `ℚ` has no NaN). -/
def falsyQ : Option ℚ → Bool
  | none => true
  | some q => q == 0

/-! ## The DOM model

An element tree.  `tag` is the DOM `tagName` exactly as the host reports it
(uppercase for HTML elements such as `"A"` or `"BUTTON"`, lowercase for SVG
elements such as `"svg"` and `"path"`).  `attrs` is the attribute list.
`styleCursor` models the element's inline `style.cursor` property (backed by
the style attribute, hence copied by `cloneNode`), and `onclickTo` models a
click handler assigned through the `onclick` property, recorded as the URL
the attached closure navigates to (properties are *not* copied by
`cloneNode`). -/

mutual
inductive Elem : Type where
  | mk (tag : String) (attrs : List (String × String)) (styleCursor : Option String)
      (onclickTo : Option String) (children : ElemList)
inductive ElemList : Type where
  | nil : ElemList
  | cons (head : Elem) (tail : ElemList) : ElemList
end

def Elem.tag : Elem → String
  | .mk t _ _ _ _ => t

def Elem.attrs : Elem → List (String × String)
  | .mk _ a _ _ _ => a

def Elem.children : Elem → ElemList
  | .mk _ _ _ _ cs => cs

/-- Attribute lookup (first binding of `k`). -/
def lookupKV (k : String) : List (String × String) → Option String
  | [] => none
  | p :: t => if p.1 == k then some p.2 else lookupKV k t

/-- Replace every binding of `k` by `(k, v)`, in place. -/
def putKV (k v : String) : List (String × String) → List (String × String)
  | [] => []
  | p :: t => if p.1 == k then (k, v) :: putKV k v t else p :: putKV k v t

/-- `setAttribute`: replace the value in place if the attribute exists,
append it otherwise. -/
def setKV (k v : String) (l : List (String × String)) : List (String × String) :=
  if (lookupKV k l).isSome then putKV k v l else l ++ [(k, v)]

/-- `removeAttribute`. -/
def removeKV (k : String) (l : List (String × String)) : List (String × String) :=
  l.filter (fun p => p.1 != k)

/-- `getAttribute` (`none` models the `null` return). -/
def Elem.getAttr (e : Elem) (k : String) : Option String := lookupKV k e.attrs

def Elem.setAttr : Elem → String → String → Elem
  | .mk t a sc oc cs, k, v => .mk t (setKV k v a) sc oc cs

def Elem.removeAttr : Elem → String → Elem
  | .mk t a sc oc cs, k => .mk t (removeKV k a) sc oc cs

def Elem.setCursorPointer : Elem → Elem
  | .mk t a _ oc cs => .mk t a (some "pointer") oc cs

def Elem.setOnclickNav : Elem → String → Elem
  | .mk t a sc _ cs, url => .mk t a sc (some url) cs

/- `cloneNode(true)`: copies the structure, tags, attributes and inline
style, but not properties such as `onclick`. -/
mutual
def cloneNodeE : Elem → Elem
  | .mk t a sc _ cs => .mk t a sc none (cloneNodeL cs)
def cloneNodeL : ElemList → ElemList
  | .nil => .nil
  | .cons c cs => .cons (cloneNodeE c) (cloneNodeL cs)
end

/- Number of nodes (the node itself included) satisfying `p`. -/
mutual
def countAllPE (p : Elem → Bool) : Elem → ℕ
  | e@(.mk _ _ _ _ cs) => (if p e then 1 else 0) + countAllPL p cs
def countAllPL (p : Elem → Bool) : ElemList → ℕ
  | .nil => 0
  | .cons c cs => countAllPE p c + countAllPL p cs
end

/- First node (the node itself included) satisfying `p`, in document
(pre-)order — the traversal order of `querySelector`. -/
mutual
def findFirstE (p : Elem → Bool) : Elem → Option Elem
  | e@(.mk _ _ _ _ cs) => if p e then some e else findFirstL p cs
def findFirstL (p : Elem → Bool) : ElemList → Option Elem
  | .nil => none
  | .cons c cs =>
    match findFirstE p c with
    | some r => some r
    | none => findFirstL p cs
end

/-- `el.querySelector(p)`: first *proper descendant* matching `p`. -/
def qsDescE (p : Elem → Bool) (e : Elem) : Option Elem := findFirstL p e.children

/- `el.querySelectorAll(p).forEach(el => el.setAttribute/removeAttribute …)`:
every node of the list (descendants of the caller) has its attribute list
rewritten by `f`, which sees the node's tag and attributes — exactly the
data the attribute selectors used by the source can inspect. -/
mutual
def mapAttrsAllE (f : String → List (String × String) → List (String × String)) :
    Elem → Elem
  | .mk t a sc oc cs => .mk t (f t a) sc oc (mapAttrsAllL f cs)
def mapAttrsAllL (f : String → List (String × String) → List (String × String)) :
    ElemList → ElemList
  | .nil => .nil
  | .cons c cs => .cons (mapAttrsAllE f c) (mapAttrsAllL f cs)
end

/-- Apply `f` to the attributes of every proper descendant (the caller of
`querySelectorAll` is not in its own result set). -/
def mapAttrsDesc (f : String → List (String × String) → List (String × String)) :
    Elem → Elem
  | .mk t a sc oc cs => .mk t a sc oc (mapAttrsAllL f cs)

/- Rewrite the first node matching `p` (document order) by `g`; `none` when
no node matches. -/
mutual
def updFirstL (p : Elem → Bool) (g : Elem → Elem) : ElemList → Option ElemList
  | .nil => none
  | .cons c cs =>
    if p c then some (.cons (g c) cs)
    else
      match updFirstInsideE p g c with
      | some c2 => some (.cons c2 cs)
      | none => (updFirstL p g cs).map (.cons c ·)
def updFirstInsideE (p : Elem → Bool) (g : Elem → Elem) : Elem → Option Elem
  | .mk t a sc oc cs => (updFirstL p g cs).map (.mk t a sc oc ·)
end

/-- `parent.replaceChild(nw, old)` where `old` is the first proper descendant
matching `p` (the way the source pairs `querySelector` with `replaceChild`);
identity when there is no match. -/
def replaceFirstDescE (p : Elem → Bool) (nw : Elem) : Elem → Elem
  | e@(.mk t a sc oc cs) =>
    match updFirstL p (fun _ => nw) cs with
    | some cs2 => .mk t a sc oc cs2
    | none => e

/-- `appendChild`. -/
def snocL : ElemList → Elem → ElemList
  | .nil, x => .cons x .nil
  | .cons c cs, x => .cons c (snocL cs x)

def snocChild : Elem → Elem → Elem
  | .mk t a sc oc cs, x => .mk t a sc oc (snocL cs x)

/- `anchor.parentElement.insertBefore(nw, anchor)` where `anchor` is the
first node matching `p` in document order: `none` when the first match is the
root itself (`parentElement` is `null` — the source call throws and the
surrounding `try` swallows it) or when there is no match. -/
mutual
def insertInL (p : Elem → Bool) (nw : Elem) : ElemList → Option ElemList
  | .nil => none
  | .cons c cs =>
    if p c then some (.cons nw (.cons c cs))
    else
      match insertInsideE p nw c with
      | some c2 => some (.cons c2 cs)
      | none => (insertInL p nw cs).map (.cons c ·)
def insertInsideE (p : Elem → Bool) (nw : Elem) : Elem → Option Elem
  | .mk t a sc oc cs => (insertInL p nw cs).map (.mk t a sc oc ·)
end

def insertBeforeFirstE (p : Elem → Bool) (nw : Elem) (e : Elem) : Option Elem :=
  if p e then none else insertInsideE p nw e

/-- Tag tests: CSS type selectors match case-insensitively. -/
def isSvgTag (e : Elem) : Bool := asciiLower e.tag == "svg"

def isPathTag (e : Elem) : Bool := asciiLower e.tag == "path"

/- First proper descendant with tag `path` together with its nearest `svg`
ancestor below the search root (`el.ownerSVGElement || el.closest('svg')`,
scoped to the supplied subtree). -/
mutual
def findPathCtxL (ctx : Option Elem) : ElemList → Option (Elem × Option Elem)
  | .nil => none
  | .cons c cs =>
    if isPathTag c then some (c, ctx)
    else
      match findPathCtxE ctx c with
      | some r => some r
      | none => findPathCtxL ctx cs
def findPathCtxE (ctx : Option Elem) : Elem → Option (Elem × Option Elem)
  | e@(.mk _ _ _ _ cs) => findPathCtxL (if isSvgTag e then some e else ctx) cs
end

def findPathWithSvgE (root : Elem) : Option (Elem × Option Elem) :=
  findPathCtxE none root

/-- The icon-lookup selector `'svg, i[class*="icon"], i[class*="fa-"], img'`
on a node's tag and attribute list (attribute substring matches are
case-sensitive and run over the raw class attribute value). -/
def isIconNP (t : String) (a : List (String × String)) : Bool :=
  let tl := asciiLower t
  let cls := (lookupKV "class" a).getD ""
  tl == "svg" || (tl == "i" && (strContains cls "icon" || strContains cls "fa-")) || tl == "img"

def isIconLike (e : Elem) : Bool := isIconNP e.tag e.attrs

/-- The `classList` view of an element: the DOM ordered-set parse of its class
attribute (whitespace split, empties dropped, first occurrences kept). -/
def classListOf (e : Elem) : List String :=
  dedupKeepFirst (splitWsTokens ((e.getAttr "class").getD ""))

/-! ## Rendered measurements (`_getIconInfo`)

`_getIconInfo` gathers, for the first `path` primitive of each icon:
`getBBox()` (geometry-only box), `getBoundingClientRect()` (rendered box),
`getComputedStyle` results, the enclosing svg's `viewBox` attribute and its
rendered box (plus its `width`/`height` attributes, which the algorithm never
reads and which are therefore not modelled).  The DOM-independent, rendering
dependent parts are supplied by this environment record; attribute reads
(`transform`, `viewBox`) come from the element tree itself. -/

structure CStyleInfo where
  strokeWidth : String
  vectorEffect : String
deriving DecidableEq

structure MeasEnv where
  refBBox : Option Rect
  refRect : Option Rect
  refCStyle : Option CStyleInfo
  refSvgRect : Option Rect
  heartBBox : Option Rect
  heartRect : Option Rect
  heartCStyle : Option CStyleInfo
  heartSvgRect : Option Rect

/-- `rect && rect.width ? rect.width : (bbox ? bbox.width : null)` — the
rendered dimension, preferring the bounding client rect, falling back to the
geometry box. -/
def pickDim (rect bbox : Option Rect) (f : Rect → ℚ) : Option ℚ :=
  match rect with
  | some r => if f r == 0 then bbox.map f else some (f r)
  | none => bbox.map f

/-- Lines 139–149: computed `stroke-width`, parsed with `parseFloat`,
defaulting to `1` when unavailable or non-finite. -/
def strokeWidthOf (env : MeasEnv) : ℚ :=
  match env.heartCStyle with
  | some cs => (jsParseFloat cs.strokeWidth).getD 1
  | none => 1

/-- Computed `vector-effect` (`''` both when the computed style is
unavailable — modelling the `null` the source leaves in place — and when the
property is unset). -/
def vectorEffectOf (env : MeasEnv) : String :=
  match env.heartCStyle with
  | some cs => jsTrim cs.vectorEffect
  | none => ""

/-- `vectorEffect && vectorEffect.indexOf('non-scaling-stroke') !== -1`. -/
def nonScalingOf (env : MeasEnv) : Bool :=
  vectorEffectOf env != "" && strContains (vectorEffectOf env) "non-scaling-stroke"

/-- Lines 152–194 of `_matchIconScale`: clamp the desired scale against the
heart svg's own rendered box and round.  Over `ℚ`, a division whose JS value
would be non-finite evaluates to `0`; both fail the `0 < _` test below and
take the same fallback to `desired`, so the clamping agrees with the JS
semantics on every input reachable under the earlier truthiness guards. -/
def codeFinalScale (desired sw : ℚ) (ve : String) (svgRect : Option Rect)
    (hw hh : ℚ) (prec : ℕ) : ℚ :=
  let nonScaling := ve != "" && strContains ve "non-scaling-stroke"
  let clampScale :=
    match svgRect with
    | some sr =>
      if sr.w == 0 || sr.h == 0 then desired
      else
        let msW0 := if nonScaling then (sr.w - sw) / hw else sr.w / (hw + sw)
        let msH0 := if nonScaling then (sr.h - sw) / hh else sr.h / (hh + sw)
        let msW := if 0 < msW0 then msW0 else desired
        let msH := if 0 < msH0 then msH0 else desired
        min desired (min msW msH)
    | none => desired
  let pow : ℚ := 10 ^ (if prec = 0 then 3 else prec)
  jsRound (clampScale * pow) / pow

/-- Lines 202–207: `vb.split(/\s+|,/).map(Number)`, accepted only when it
yields exactly four non-NaN numbers. -/
def parseViewBox (vb : String) : Option (ℚ × ℚ × ℚ × ℚ) :=
  match (splitWSComma vb).map jsNumber with
  | [some a, some b, some c, some d] => some (a, b, c, d)
  | _ => none

/-- Lines 199–211: the scaling pivot.  A truthy `viewBox` attribute that
parses gives the viewport center; a truthy one that does not parse leaves the
`(12, 12)` default in place; a missing (or empty, hence falsy) attribute
falls back to the geometry box center, then to `(12, 12)`. -/
def codePivot (svgEl : Elem) (bbox : Option Rect) : ℚ × ℚ :=
  match svgEl.getAttr "viewBox" with
  | some vb =>
    if vb == "" then
      match bbox with
      | some bb => (bb.x + bb.w / 2, bb.y + bb.h / 2)
      | none => (12, 12)
    else
      match parseViewBox vb with
      | some (mx, my, w, h) => (mx + w / 2, my + h / 2)
      | none => (12, 12)
  | none =>
    match bbox with
    | some bb => (bb.x + bb.w / 2, bb.y + bb.h / 2)
    | none => (12, 12)

/-- The transform template string
`translate(cx cy) scale(s) translate(-cx -cy)`.  The numbers are rendered
through `ℚ`'s `toString`; the JS template literal renders the same three
numbers in decimal, so the encoded operation list is identical. -/
def encodeTransform (cx cy s : ℚ) : String :=
  "translate(" ++ toString cx ++ " " ++ toString cy ++ ") scale(" ++ toString s ++
    ") translate(" ++ toString (-cx) ++ " " ++ toString (-cy) ++ ")"

/-- `heartEl.setAttribute('transform', v)` where `heartEl` is the first
`path` proper descendant (the node `querySelector('path')` returned). -/
def setFirstPathTransform (v : String) : Elem → Elem
  | .mk t a sc oc cs =>
    match updFirstL isPathTag (fun pe => pe.setAttr "transform" v) cs with
    | some cs2 => .mk t a sc oc cs2
    | none => .mk t a sc oc cs

def msgScalerMissing : String :=
  "Swym Scaler: Missing reference or heart icon. Skipping scaling."
def msgScalerNoRefPath : String :=
  "Swym Scaler: No <path> found in reference icon. Cannot apply path-based scaling."
def msgScalerNoHeartPath : String :=
  "Swym Scaler: No <path> found in new heart icon. Cannot scale."
def msgScalerNoDims : String :=
  "Swym Scaler: Could not determine widths/heights for scaling. Check getBoundingClientRect/getBBox."
def msgScalerNoSvg : String := "Swym Scaler: Heart svg not found."
def msgScalerScaled : String := "Swym Scaler: Heart icon scaled."

/-- Outcome of one `_matchIconScale` call: the two (possibly updated) icon
arguments, the diagnostic record of the applied transform — pivot, final
scale and the pre-existing transform text it was prepended to, mirroring the
`console.log` payload — and the warnings/logs emitted. -/
structure ScaleResult where
  refOut : Option Elem
  heartOut : Option Elem
  applied : Option (ℚ × ℚ × ℚ × String)
  logs : List String

def noChangeR (r h : Option Elem) (m : String) : ScaleResult := ⟨r, h, none, [m]⟩

def appliedScaleOf (r : ScaleResult) : Option ℚ := r.applied.map (fun t => t.2.2.1)

/-- `_matchIconScale(referenceIcon, heartSvg, maxScaleDecimals)`
(lines 97–219). -/
def matchIconScale (env : MeasEnv) (refIcon? heartSvg? : Option Elem)
    (maxScaleDecimals : ℕ) : ScaleResult :=
  match refIcon?, heartSvg? with
  | some refIcon, some heartSvg =>
    match qsDescE isPathTag refIcon with
    | none => noChangeR (some refIcon) (some heartSvg) msgScalerNoRefPath
    | some _ =>
      match findPathWithSvgE heartSvg with
      | none => noChangeR (some refIcon) (some heartSvg) msgScalerNoHeartPath
      | some (heartEl, svgCtx) =>
        match pickDim env.refRect env.refBBox Rect.w, pickDim env.refRect env.refBBox Rect.h,
            pickDim env.heartRect env.heartBBox Rect.w, pickDim env.heartRect env.heartBBox Rect.h with
        | some rw, some rh, some hw, some hh =>
          if rw == 0 || hw == 0 || rh == 0 || hh == 0 then
            noChangeR (some refIcon) (some heartSvg) msgScalerNoDims
          else
            let desired := max (rw / hw) (rh / hh)
            let sw := strokeWidthOf env
            let ve := vectorEffectOf env
            let svgRect : Option Rect :=
              match svgCtx with
              | some _ => env.heartSvgRect
              | none => none
            let finalScale := codeFinalScale desired sw ve svgRect hw hh maxScaleDecimals
            match svgCtx with
            | none => noChangeR (some refIcon) (some heartSvg) msgScalerNoSvg
            | some svgEl =>
              let pivot := codePivot svgEl env.heartBBox
              let existing := (heartEl.getAttr "transform").getD ""
              let newVal := encodeTransform pivot.1 pivot.2 finalScale ++
                (if existing == "" then "" else " " ++ existing)
              { refOut := some refIcon
                heartOut := some (setFirstPathTransform newVal heartSvg)
                applied := some (pivot.1, pivot.2, finalScale, existing)
                logs := [msgScalerScaled] }
        | _, _, _, _ => noChangeR (some refIcon) (some heartSvg) msgScalerNoDims
  | _, _ => noChangeR refIcon? heartSvg? msgScalerMissing

/-! ## The Icon Factory (`createHeartSvg`) -/

/-- JS `setAttribute` coerces its value to a string: the `null` returned by
`getAttribute` on an element with no class attribute becomes the literal
string `"null"`. -/
def jsAttrString : Option String → String
  | some s => s
  | none => "null"

def heartPathD : String :=
  "M20.84 4.61a5.5 5.5 0 0 0-7.78 0L12 5.67l-1.06-1.06a5.5 5.5 0 0 0-7.78 7.78l1.06 1.06L12 21.23l7.78-7.78 1.06-1.06a5.5 5.5 0 0 0 0-7.78z"

/-- The parse of `heartIconSVGString` (a valid template: the source's
null-root configuration-defect branch is unreachable for it). -/
def heartTemplate : Elem :=
  .mk "svg"
    [("xmlns", "http://www.w3.org/2000/svg"), ("viewBox", "0 0 24 24"),
     ("fill", "none"), ("stroke", "currentColor"), ("stroke-linecap", "round"),
     ("stroke-linejoin", "round"), ("aria-hidden", "true"),
     ("focusable", "false"), ("role", "presentation")]
    none none
    (.cons (.mk "path" [("d", heartPathD)] none none .nil) .nil)

/-- `createHeartSvg(referenceIcon)` (lines 50–70): parse the template and,
when a reference icon is supplied, copy its full class attribute value. -/
def createHeartSvg : Option Elem → Elem
  | some ref => heartTemplate.setAttr "class" (jsAttrString (ref.getAttr "class"))
  | none => heartTemplate

/-! ## The Injector (`inject`) -/

def wishlistButtonId : String := "swym-wishlist-header-button"
def wishlistPageUrl : String := "/apps/wishlist"
def wishlistAriaLabel : String := "Wishlist (0 items)"

def markerNP (t : String) (a : List (String × String)) : Bool :=
  lookupKV "id" a == some wishlistButtonId

def isMarkerElem (e : Elem) : Bool := markerNP e.tag e.attrs

/-- `document.getElementById(wishlistButtonId)` truthiness. -/
def hasMarkerId (doc : Elem) : Bool := (findFirstE isMarkerElem doc).isSome

/-- `className.toLowerCase().includes('cart')`. -/
def cartTokenB (t : String) : Bool := strContains (asciiLower t) "cart"

/-- Lines 252–260: collect the classList tokens whose lowercase form contains
`cart` and remove them.  `classList` iterates the ordered token set of the
class attribute, and `remove` writes back the serialization of that set minus
the removed tokens; an element with no class attribute keeps none. -/
def sanitizeRootClasses (e : Elem) : Elem :=
  match e.getAttr "class" with
  | none => e
  | some s =>
    let toks := dedupKeepFirst (splitWsTokens s)
    e.setAttr "class" (joinSpace (toks.filter (fun t => !cartTokenB t)))

/-- `[id*="cart"]` descendants lose their `id` (attribute substring match,
case-sensitive). -/
def stripCartIds (_t : String) (a : List (String × String)) :
    List (String × String) :=
  match lookupKV "id" a with
  | some v => if strContains v "cart" then removeKV "id" a else a
  | none => a

/-- `[data-cart-status]` descendants lose that attribute. -/
def stripCartData (_t : String) (a : List (String × String)) :
    List (String × String) :=
  if (lookupKV "data-cart-status" a).isSome then removeKV "data-cart-status" a else a

/-- The selector `a[href*="/cart"]` on a node's tag and attributes. -/
def hrefCartP (t : String) (a : List (String × String)) : Bool :=
  asciiLower t == "a" &&
    (match lookupKV "href" a with
     | some v => strContains v "/cart"
     | none => false)

def matchesCartHref (e : Elem) : Bool := hrefCartP e.tag e.attrs

def stripCartHrefs (t : String) (a : List (String × String)) :
    List (String × String) :=
  if hrefCartP t a then removeKV "href" a else a

/-- Steps 3–4 of `inject` (lines 246–289): deep-clone the anchor, assign the
reserved id, drop cart classes from the root, strip cart ids /
`data-cart-status` / cart hrefs from descendants, wire the activation
behavior, and set the accessible label. -/
def sanitizeUpToHrefs (cart : Elem) : Elem :=
  let w := cloneNodeE cart
  let w := w.setAttr "id" wishlistButtonId
  let w := sanitizeRootClasses w
  let w := mapAttrsDesc stripCartIds w
  let w := mapAttrsDesc stripCartData w
  let w := if matchesCartHref w then w.removeAttr "href" else w
  mapAttrsDesc stripCartHrefs w

def sanitizeClone (cart : Elem) : Elem :=
  let w := sanitizeUpToHrefs cart
  let w := if w.tag == "A" then w.setAttr "href" wishlistPageUrl
           else (w.setCursorPointer).setOnclickNav wishlistPageUrl
  w.setAttr "aria-label" wishlistAriaLabel

/-- The heart element as it stands in the final document: built from the
anchor's reference icon when both the clone and the anchor contain an
icon-like element (otherwise with no style reference), then — whenever the
anchor supplied a reference icon — rewritten in place by the Geometry Matcher
(step 7 runs exactly when `referenceIcon && heartSvg`).  The source scales
the heart after insertion; the final tree is the same because the scaler
rewrites only the heart subtree and reads only the measurement environment
and the heart/reference subtrees, none of which the insertion changes. -/
def builtHeart (env : MeasEnv) (cart : Elem) : Elem :=
  let w := sanitizeClone cart
  let h0 :=
    match qsDescE isIconLike w, qsDescE isIconLike cart with
    | some _, some ri => createHeartSvg (some ri)
    | _, _ => createHeartSvg none
  match qsDescE isIconLike cart with
  | some ri => ((matchIconScale env (some ri) (some h0) 3).heartOut).getD h0
  | none => h0

/-- Step 5 (lines 291–314): the element `inject` inserts — the sanitized
clone with its icon-like element replaced by the heart, or with the heart
appended when no icon-like element was found. -/
def wishlistElementOf (env : MeasEnv) (cart : Elem) : Elem :=
  let w := sanitizeClone cart
  match qsDescE isIconLike w, qsDescE isIconLike cart with
  | some _, some _ => replaceFirstDescE isIconLike (builtHeart env cart) w
  | _, _ => snocChild w (builtHeart env cart)

def msgNotFound : String := "Swym: Could not find element with selector."
def msgAlready : String := "Swym: Wishlist icon already present."
def msgNoIcon : String :=
  "Swym: Could not find an icon (svg, i, img) inside the cloned cart element."
def msgInjected : String := "Swym: Wishlist icon injected successfully."
def msgSkipScale : String :=
  "Swym Scaler: Could not scale icon, missing referenceIcon or heartSvg."
def msgInjectError : String := "Swym: Error injecting wishlist icon:"

/-- The icon-substitution warning emitted while building the clone. -/
def buildLogs (cart : Elem) : List String :=
  match qsDescE isIconLike (sanitizeClone cart), qsDescE isIconLike cart with
  | some _, some _ => []
  | _, _ => [msgNoIcon]

structure InjectResult where
  doc : Elem
  logs : List String
  scalerInvoked : Bool

/-- `inject(cartSelector)` (lines 225–332) as a document transformer.  The
caller-supplied CSS selector is modelled as a predicate on elements (the
`!cartSelector` empty-string guard lives outside this model).  A `none` from
`insertBeforeFirstE` is the `parentElement === null` `TypeError`, caught by
the surrounding `try` after only the detached clone was mutated.
`scalerInvoked` records whether the step-7 branch calling `_matchIconScale`
was taken. -/
def inject (env : MeasEnv) (sel : Elem → Bool) (doc : Elem) : InjectResult :=
  match findFirstE sel doc with
  | none => ⟨doc, [msgNotFound], false⟩
  | some cart =>
    if hasMarkerId doc then ⟨doc, [msgAlready], false⟩
    else
      match insertBeforeFirstE sel (wishlistElementOf env cart) doc with
      | none => ⟨doc, buildLogs cart ++ [msgInjectError], false⟩
      | some d1 =>
        match qsDescE isIconLike cart with
        | some ri =>
          let h0 :=
            match qsDescE isIconLike (sanitizeClone cart) with
            | some _ => createHeartSvg (some ri)
            | none => createHeartSvg none
          ⟨d1, buildLogs cart ++ [msgInjected] ++
            (matchIconScale env (some ri) (some h0) 3).logs, true⟩
        | none => ⟨d1, buildLogs cart ++ [msgInjected, msgSkipScale], false⟩

/-! ## Attribute lemmas -/

theorem lookup_putKV_self (k v : String) (l : List (String × String)) :
    lookupKV k (putKV k v l) = if (lookupKV k l).isSome then some v else none := by
  induction l with
  | nil => simp [putKV, lookupKV]
  | cons p t ih =>
    by_cases h : p.1 = k
    · have hb : (p.1 == k) = true := by simp [h]
      simp [putKV, hb, lookupKV, ih]
    · have hb : (p.1 == k) = false := beq_false_of_ne h
      simp [putKV, hb, lookupKV, ih]

theorem lookup_putKV_ne (k v k2 : String) (l : List (String × String)) (h : k2 ≠ k) :
    lookupKV k2 (putKV k v l) = lookupKV k2 l := by
  induction l with
  | nil => simp [putKV, lookupKV]
  | cons p t ih =>
    by_cases hp : p.1 = k
    · have hb : (p.1 == k) = true := by simp [hp]
      have hb2 : (k == k2) = false := beq_false_of_ne (Ne.symm h)
      have hb3 : (p.1 == k2) = false := by
        rw [hp]
        exact hb2
      simp [putKV, hb, lookupKV, hb2, hb3, ih]
    · have hb : (p.1 == k) = false := beq_false_of_ne hp
      simp [putKV, hb, lookupKV, ih]

theorem lookup_append_single (k k2 v2 : String) (l : List (String × String)) :
    lookupKV k (l ++ [(k2, v2)]) =
      match lookupKV k l with
      | some v => some v
      | none => if k2 == k then some v2 else none := by
  induction l with
  | nil => simp [lookupKV]
  | cons p t ih =>
    by_cases hp : p.1 = k
    · have hb : (p.1 == k) = true := by simp [hp]
      simp [lookupKV, hb]
    · have hb : (p.1 == k) = false := beq_false_of_ne hp
      simp [lookupKV, hb, ih]

theorem lookup_setKV_self (k v : String) (l : List (String × String)) :
    lookupKV k (setKV k v l) = some v := by
  unfold setKV
  by_cases h : (lookupKV k l).isSome
  · simp [h, lookup_putKV_self]
  · simp only [h, if_false, Bool.false_eq_true, lookup_append_single]
    cases hl : lookupKV k l with
    | none => simp
    | some v2 => simp [hl] at h

theorem lookup_setKV_ne (k v k2 : String) (l : List (String × String)) (h : k2 ≠ k) :
    lookupKV k2 (setKV k v l) = lookupKV k2 l := by
  unfold setKV
  by_cases hs : (lookupKV k l).isSome
  · simp [hs, lookup_putKV_ne _ _ _ _ h]
  · have hb : (k == k2) = false := beq_false_of_ne (Ne.symm h)
    simp only [hs, if_false, Bool.false_eq_true, lookup_append_single, hb]
    cases hl : lookupKV k2 l with
    | none => simp
    | some v2 => simp

theorem lookup_removeKV_self (k : String) (l : List (String × String)) :
    lookupKV k (removeKV k l) = none := by
  induction l with
  | nil => simp [removeKV, lookupKV]
  | cons p t ih =>
    by_cases hp : p.1 = k
    · have hb : (p.1 != k) = false := by simp [hp]
      simp only [removeKV, List.filter, hb]
      simpa [removeKV] using ih
    · have hb : (p.1 != k) = true := by simp [bne_iff_ne]; exact hp
      have hb2 : (p.1 == k) = false := beq_false_of_ne hp
      simp only [removeKV, List.filter, hb, lookupKV, hb2, Bool.false_eq_true, if_false]
      simpa [removeKV] using ih

theorem lookup_removeKV_ne (k k2 : String) (l : List (String × String)) (h : k2 ≠ k) :
    lookupKV k2 (removeKV k l) = lookupKV k2 l := by
  induction l with
  | nil => simp [removeKV, lookupKV]
  | cons p t ih =>
    by_cases hp : p.1 = k
    · have hb : (p.1 != k) = false := by simp [hp]
      have hb2 : (p.1 == k2) = false := by
        rw [hp]
        exact beq_false_of_ne (Ne.symm h)
      simp only [removeKV, List.filter, hb, lookupKV, hb2, Bool.false_eq_true, if_false]
      simpa [removeKV] using ih
    · have hb : (p.1 != k) = true := by simp [bne_iff_ne]; exact hp
      simp only [removeKV, List.filter, hb, lookupKV]
      by_cases hk : p.1 = k2
      · have hb2 : (p.1 == k2) = true := by simp [hk]
        simp [hb2]
      · have hb2 : (p.1 == k2) = false := beq_false_of_ne hk
        simp only [hb2, Bool.false_eq_true, if_false]
        simpa [removeKV] using ih

theorem getAttr_setAttr_self (e : Elem) (k v : String) :
    (e.setAttr k v).getAttr k = some v := by
  cases e with
  | mk t a sc oc cs => simp [Elem.setAttr, Elem.getAttr, Elem.attrs, lookup_setKV_self]

theorem getAttr_setAttr_ne (e : Elem) (k v k2 : String) (h : k2 ≠ k) :
    (e.setAttr k v).getAttr k2 = e.getAttr k2 := by
  cases e with
  | mk t a sc oc cs => simp [Elem.setAttr, Elem.getAttr, Elem.attrs, lookup_setKV_ne _ _ _ _ h]

theorem getAttr_removeAttr_self (e : Elem) (k : String) :
    (e.removeAttr k).getAttr k = none := by
  cases e with
  | mk t a sc oc cs => simp [Elem.removeAttr, Elem.getAttr, Elem.attrs, lookup_removeKV_self]

theorem getAttr_removeAttr_ne (e : Elem) (k k2 : String) (h : k2 ≠ k) :
    (e.removeAttr k).getAttr k2 = e.getAttr k2 := by
  cases e with
  | mk t a sc oc cs => simp [Elem.removeAttr, Elem.getAttr, Elem.attrs, lookup_removeKV_ne _ _ _ h]

theorem tag_setAttr (e : Elem) (k v : String) : (e.setAttr k v).tag = e.tag := by
  cases e with
  | mk t a sc oc cs => simp [Elem.setAttr, Elem.tag]

theorem tag_removeAttr (e : Elem) (k : String) : (e.removeAttr k).tag = e.tag := by
  cases e with
  | mk t a sc oc cs => simp [Elem.removeAttr, Elem.tag]

theorem children_setAttr (e : Elem) (k v : String) :
    (e.setAttr k v).children = e.children := by
  cases e with
  | mk t a sc oc cs => simp [Elem.setAttr, Elem.children]

theorem children_removeAttr (e : Elem) (k : String) :
    (e.removeAttr k).children = e.children := by
  cases e with
  | mk t a sc oc cs => simp [Elem.removeAttr, Elem.children]

theorem tag_setCursorPointer (e : Elem) : (e.setCursorPointer).tag = e.tag := by
  cases e with
  | mk t a sc oc cs => simp [Elem.setCursorPointer, Elem.tag]

theorem getAttr_setCursorPointer (e : Elem) (k : String) :
    (e.setCursorPointer).getAttr k = e.getAttr k := by
  cases e with
  | mk t a sc oc cs => simp [Elem.setCursorPointer, Elem.getAttr, Elem.attrs]

theorem children_setCursorPointer (e : Elem) :
    (e.setCursorPointer).children = e.children := by
  cases e with
  | mk t a sc oc cs => simp [Elem.setCursorPointer, Elem.children]

theorem tag_setOnclickNav (e : Elem) (u : String) : (e.setOnclickNav u).tag = e.tag := by
  cases e with
  | mk t a sc oc cs => simp [Elem.setOnclickNav, Elem.tag]

theorem getAttr_setOnclickNav (e : Elem) (u k : String) :
    (e.setOnclickNav u).getAttr k = e.getAttr k := by
  cases e with
  | mk t a sc oc cs => simp [Elem.setOnclickNav, Elem.getAttr, Elem.attrs]

theorem children_setOnclickNav (e : Elem) (u : String) :
    (e.setOnclickNav u).children = e.children := by
  cases e with
  | mk t a sc oc cs => simp [Elem.setOnclickNav, Elem.children]

/-! ## Geometry Matcher lemmas -/

/-- First proper path descendant's transform attribute. -/
def firstPathTransform (e : Elem) : Option String :=
  (qsDescE isPathTag e).bind (fun p => p.getAttr "transform")

theorem matchIconScale_aon (env : MeasEnv) (ri hs : Option Elem) (d : ℕ) :
    (matchIconScale env ri hs d).refOut = ri ∧
      (((matchIconScale env ri hs d).heartOut = hs ∧ (matchIconScale env ri hs d).applied = none) ∨
        (∃ h cx cy sc ex, hs = some h ∧
          (matchIconScale env ri hs d).applied = some (cx, cy, sc, ex) ∧
          (matchIconScale env ri hs d).heartOut =
            some (setFirstPathTransform
              (encodeTransform cx cy sc ++ (if ex == "" then "" else " " ++ ex)) h))) := by
  rcases ri with _ | refIcon
  · simp [matchIconScale, noChangeR]
  rcases hs with _ | heartSvg
  · simp [matchIconScale, noChangeR]
  cases hq : qsDescE isPathTag refIcon with
  | none => simp [matchIconScale, hq, noChangeR]
  | some rp =>
  cases hf : findPathWithSvgE heartSvg with
  | none => simp [matchIconScale, hq, hf, noChangeR]
  | some pr =>
  obtain ⟨heartEl, svgCtx⟩ := pr
  cases h1 : pickDim env.refRect env.refBBox Rect.w with
  | none => simp [matchIconScale, hq, hf, h1, noChangeR]
  | some rw2 =>
  cases h2 : pickDim env.refRect env.refBBox Rect.h with
  | none => simp [matchIconScale, hq, hf, h1, h2, noChangeR]
  | some rh2 =>
  cases h3 : pickDim env.heartRect env.heartBBox Rect.w with
  | none => simp [matchIconScale, hq, hf, h1, h2, h3, noChangeR]
  | some hw2 =>
  cases h4 : pickDim env.heartRect env.heartBBox Rect.h with
  | none => simp [matchIconScale, hq, hf, h1, h2, h3, h4, noChangeR]
  | some hh2 =>
  cases hz : (rw2 == 0 || hw2 == 0 || rh2 == 0 || hh2 == 0) with
  | true => simp [matchIconScale, hq, hf, h1, h2, h3, h4, hz, noChangeR]
  | false =>
  cases svgCtx with
  | none => simp [matchIconScale, hq, hf, h1, h2, h3, h4, hz, noChangeR]
  | some svgEl =>
  simp only [matchIconScale, hq, hf, h1, h2, h3, h4, hz, Bool.false_eq_true, if_false]
  exact ⟨trivial, Or.inr ⟨heartSvg, _, _, _, _, rfl, rfl, rfl⟩⟩

/-- The fully-reduced success case of `_matchIconScale`. -/
theorem matchIconScale_success (env : MeasEnv) (refIcon heartSvg rp heartEl svgEl : Elem)
    (d : ℕ) (rw2 rh2 hw2 hh2 : ℚ)
    (hq : qsDescE isPathTag refIcon = some rp)
    (hf : findPathWithSvgE heartSvg = some (heartEl, some svgEl))
    (h1 : pickDim env.refRect env.refBBox Rect.w = some rw2)
    (h2 : pickDim env.refRect env.refBBox Rect.h = some rh2)
    (h3 : pickDim env.heartRect env.heartBBox Rect.w = some hw2)
    (h4 : pickDim env.heartRect env.heartBBox Rect.h = some hh2)
    (hz : (rw2 == 0 || hw2 == 0 || rh2 == 0 || hh2 == 0) = false) :
    matchIconScale env (some refIcon) (some heartSvg) d =
      { refOut := some refIcon
        heartOut := some (setFirstPathTransform
          (encodeTransform (codePivot svgEl env.heartBBox).1 (codePivot svgEl env.heartBBox).2
              (codeFinalScale (max (rw2 / hw2) (rh2 / hh2)) (strokeWidthOf env)
                (vectorEffectOf env) env.heartSvgRect hw2 hh2 d) ++
            (if ((heartEl.getAttr "transform").getD "" == "") = true then ""
             else " " ++ (heartEl.getAttr "transform").getD "")) heartSvg)
        applied := some ((codePivot svgEl env.heartBBox).1, (codePivot svgEl env.heartBBox).2,
          codeFinalScale (max (rw2 / hw2) (rh2 / hh2)) (strokeWidthOf env)
            (vectorEffectOf env) env.heartSvgRect hw2 hh2 d,
          (heartEl.getAttr "transform").getD "")
        logs := [msgScalerScaled] } := by
  simp only [matchIconScale, hq, hf, h1, h2, h3, h4, hz, Bool.false_eq_true, if_false]

/-- C9: for every invocation of the Geometry Matcher (`matchScale` /
`_matchIconScale`), the reference icon and its subtree are left entirely
unchanged; the only element possibly mutated is the new icon's path
primitive, whose local transform attribute is updated. -/
theorem matchScale_never_mutates_reference (env : MeasEnv) (ri hs : Option Elem) (d : ℕ) :
    (matchIconScale env ri hs d).refOut = ri ∧
      ((matchIconScale env ri hs d).heartOut = hs ∨
        ∃ h v, hs = some h ∧
          (matchIconScale env ri hs d).heartOut = some (setFirstPathTransform v h)) := by
  obtain ⟨h1, h2⟩ := matchIconScale_aon env ri hs d
  refine ⟨h1, ?_⟩
  rcases h2 with ⟨h3, _⟩ | ⟨h, cx, cy, sc, ex, hh, _, hout⟩
  · exact Or.inl h3
  · exact Or.inr ⟨h, _, hh, hout⟩

/-- C10: when the Icon Factory (`createHeartSvg`) is given a reference icon
with no class attribute at all, the new icon root's class attribute is set to
the literal string `"null"` (the stringified `null` returned by the attribute
read), not left absent or empty. -/
theorem createHeartSvg_stringifies_null_class (ref : Elem)
    (h : ref.getAttr "class" = none) :
    (createHeartSvg (some ref)).getAttr "class" = some "null" := by
  simp only [createHeartSvg, h, jsAttrString]
  exact getAttr_setAttr_self _ _ _

theorem createHeartSvg_stringifies_null_class_witness :
    (Elem.mk "BUTTON" [("href", "/cart")] none none .nil).getAttr "class" = none ∧
      (createHeartSvg (some (.mk "BUTTON" [("href", "/cart")] none none .nil))).getAttr "class" =
        some "null" :=
  ⟨rfl, createHeartSvg_stringifies_null_class _ rfl⟩

/-! ## Concrete scaler instances used by witnesses and counterexamples -/

def cexRef : Elem := .mk "svg" [] none none (.cons (.mk "path" [] none none .nil) .nil)

/-- A heart svg whose declared viewBox does not parse. -/
def cexHeart : Elem :=
  .mk "svg" [("viewBox", "abc")] none none (.cons (.mk "path" [] none none .nil) .nil)

/-- A heart svg with the conventional `0 0 24 24` viewBox. -/
def c1Heart : Elem :=
  .mk "svg" [("viewBox", "0 0 24 24")] none none (.cons (.mk "path" [] none none .nil) .nil)

/-- Reference path rendered 20×20, heart path 20×20, heart svg box 24×24. -/
def cexEnv : MeasEnv :=
  ⟨none, some ⟨0, 0, 20, 20⟩, none, none, none, some ⟨0, 0, 20, 20⟩, none, some ⟨0, 0, 24, 24⟩⟩

/-- An environment in which no measurement is available. -/
def emptyEnv : MeasEnv := ⟨none, none, none, none, none, none, none, none⟩

theorem parseViewBox_empty : parseViewBox "" = none := by
  simp +decide [parseViewBox, splitWSComma, splitWSCommaAux, jsNumber, jsIsSpace]

/-- C2 counterexample: with every size measurement available but the heart's
declared viewBox equal to the unparseable string `"abc"`, `_matchIconScale`
does not abort: it still computes and applies a transform (falling back to
the default `(12, 12)` pivot), mutating the new icon's path — the heart's
path had no transform attribute before the call and has one afterwards. -/
theorem matchScale_unparseable_viewbox_no_abort :
    cexHeart.getAttr "viewBox" = some "abc" ∧
    parseViewBox "abc" = none ∧
    firstPathTransform cexHeart = none ∧
    (matchIconScale cexEnv (some cexRef) (some cexHeart) 3).applied = some (12, 12, 1, "") ∧
    ((matchIconScale cexEnv (some cexRef) (some cexHeart) 3).heartOut.bind firstPathTransform).isSome
      = true := by
  have hpv : parseViewBox "abc" = none := by
    simp +decide [parseViewBox, splitWSComma, splitWSCommaAux, jsNumber, jsIsSpace, digitsVal]
  refine ⟨rfl, hpv, rfl, ?_, ?_⟩ <;>
  · try simp +decide [matchIconScale, cexEnv, cexRef, cexHeart, qsDescE, findPathWithSvgE,
      findPathCtxE, findPathCtxL, isPathTag, isSvgTag, asciiLower, asciiLowerChar, findFirstE,
      findFirstL, pickDim, strokeWidthOf, vectorEffectOf, codeFinalScale, codePivot, parseViewBox,
      splitWSComma, splitWSCommaAux, jsNumber, jsIsSpace, digitsVal, jsRound, Elem.getAttr,
      Elem.attrs, Elem.children, lookupKV, setFirstPathTransform, updFirstL, updFirstInsideE,
      Elem.setAttr, setKV, firstPathTransform]
    try norm_num [inf_eq_min, min_def]

/-- C2 (amended): a missing size measurement — when for one of the four
dimensions neither the rendered bounding rect nor the geometry box yields a
usable non-zero value — causes early abort of the whole matching call with
the logged warning and no mutation; and in general every call is
all-or-nothing: either the transform is fully computed and applied to the new
icon's primitive or nothing is changed.  (An unparseable declared viewport
does *not* abort: the pivot silently falls back to `(12, 12)`.) -/
theorem matchScale_missing_measurement_abort
    (env : MeasEnv) (refIcon heartSvg rp : Elem) (pr : Elem × Option Elem) (d : ℕ)
    (hq : qsDescE isPathTag refIcon = some rp)
    (hf : findPathWithSvgE heartSvg = some pr)
    (hmiss : falsyQ (pickDim env.refRect env.refBBox Rect.w) = true ∨
        falsyQ (pickDim env.heartRect env.heartBBox Rect.w) = true ∨
        falsyQ (pickDim env.refRect env.refBBox Rect.h) = true ∨
        falsyQ (pickDim env.heartRect env.heartBBox Rect.h) = true) :
    matchIconScale env (some refIcon) (some heartSvg) d =
      noChangeR (some refIcon) (some heartSvg) msgScalerNoDims ∧
    msgScalerNoDims ∈ (matchIconScale env (some refIcon) (some heartSvg) d).logs ∧
    (∀ (env2 : MeasEnv) (ri2 hs2 : Option Elem) (d2 : ℕ),
      ((matchIconScale env2 ri2 hs2 d2).heartOut = hs2 ∧
        (matchIconScale env2 ri2 hs2 d2).applied = none) ∨
      (∃ h cx cy sc ex, hs2 = some h ∧
        (matchIconScale env2 ri2 hs2 d2).applied = some (cx, cy, sc, ex) ∧
        (matchIconScale env2 ri2 hs2 d2).heartOut =
          some (setFirstPathTransform
            (encodeTransform cx cy sc ++ (if ex == "" then "" else " " ++ ex)) h))) := by
  obtain ⟨heartEl, svgCtx⟩ := pr
  have key : matchIconScale env (some refIcon) (some heartSvg) d =
      noChangeR (some refIcon) (some heartSvg) msgScalerNoDims := by
    cases hp1 : pickDim env.refRect env.refBBox Rect.w with
    | none => simp [matchIconScale, hq, hf, hp1]
    | some a =>
    cases hp3 : pickDim env.heartRect env.heartBBox Rect.w with
    | none => simp [matchIconScale, hq, hf, hp1, hp3]
    | some c =>
    cases hp2 : pickDim env.refRect env.refBBox Rect.h with
    | none => simp [matchIconScale, hq, hf, hp1, hp2, hp3]
    | some b =>
    cases hp4 : pickDim env.heartRect env.heartBBox Rect.h with
    | none => simp [matchIconScale, hq, hf, hp1, hp2, hp3, hp4]
    | some e =>
    have hz : (a == 0 || c == 0 || b == 0 || e == 0) = true := by
      rcases hmiss with h | h | h | h <;>
        simp [hp1, hp2, hp3, hp4, falsyQ] at h <;> simp [h]
    simp [matchIconScale, hq, hf, hp1, hp2, hp3, hp4, hz]
  refine ⟨key, ?_, ?_⟩
  · rw [key]
    simp [noChangeR]
  · intro env2 ri2 hs2 d2
    exact (matchIconScale_aon env2 ri2 hs2 d2).2

theorem matchScale_missing_measurement_abort_witness :
    matchIconScale emptyEnv (some cexRef) (some cexHeart) 3 =
      noChangeR (some cexRef) (some cexHeart) msgScalerNoDims :=
  (matchScale_missing_measurement_abort emptyEnv cexRef cexHeart (.mk "path" [] none none .nil)
    (.mk "path" [] none none .nil, some cexHeart) 3 rfl rfl (Or.inl rfl)).1

/-! ## The spec's formulation of the applied scale -/

/-- The spec's per-axis maximum permissible scale: with a geometry-scaling
stroke, `viewport / (path + stroke)`; in non-scaling-stroke mode,
`(viewport − stroke) / path`; a non-finite or non-positive maximum (over `ℚ`
the former surfaces as `0`) is replaced by the desired scale. -/
def spec_axisMax (viewport path stroke desired : ℚ) (nonScalingStroke : Bool) : ℚ :=
  let m := if nonScalingStroke then (viewport - stroke) / path else viewport / (path + stroke)
  if 0 < m then m else desired

/-- Rounding to `prec` decimal digits with JS `Math.round`. -/
def spec_round (x : ℚ) (prec : ℕ) : ℚ := jsRound (x * 10 ^ prec) / 10 ^ prec

/-- The spec's desired scale: the larger of the two width/height ratios. -/
def spec_desiredScale (refW refH pathW pathH : ℚ) : ℚ :=
  max (refW / pathW) (refH / pathH)

/-- The spec's final applied scale: `min(desired, effective clamp)` rounded,
where the effective clamp is the minimum of the two axis maxima. -/
def spec_appliedScale (refW refH pathW pathH stroke : ℚ) (nonScalingStroke : Bool)
    (vpW vpH : ℚ) (prec : ℕ) : ℚ :=
  let desired := spec_desiredScale refW refH pathW pathH
  let clamp := min (spec_axisMax vpW pathW stroke desired nonScalingStroke)
    (spec_axisMax vpH pathH stroke desired nonScalingStroke)
  spec_round (min desired clamp) prec

theorem codeFinalScale_eq_spec (rw2 rh2 hw2 hh2 sw : ℚ) (ve : String) (sr : Rect) (prec : ℕ)
    (h5 : 0 < sr.w) (h6 : 0 < sr.h) (hp : 0 < prec) :
    codeFinalScale (max (rw2 / hw2) (rh2 / hh2)) sw ve (some sr) hw2 hh2 prec =
      spec_appliedScale rw2 rh2 hw2 hh2 sw (ve != "" && strContains ve "non-scaling-stroke")
        sr.w sr.h prec := by
  have hw0 : (sr.w == 0) = false := by simp [h5.ne']
  have hh0 : (sr.h == 0) = false := by simp [h6.ne']
  have hprec : (if prec = 0 then 3 else prec) = prec := by
    simp [Nat.pos_iff_ne_zero.mp hp]
  unfold codeFinalScale spec_appliedScale spec_axisMax spec_round spec_desiredScale
  simp only [hw0, hh0, Bool.or_self, Bool.false_eq_true, if_false, hprec, Bool.or_false]

/-- C1: for every reference/new-icon pair with positive finite rendered
widths and heights, the scale applied by the Geometry Matcher is
`min(desired scale, effective clamp)` rounded to the configured precision,
with the per-axis maxima and their degenerate fallback exactly as the spec
states them (`spec_appliedScale`). -/
theorem matchScale_clamped_scale (env : MeasEnv) (refIcon heartSvg rp heartEl svgEl : Elem)
    (prec : ℕ) (rr hr sr : Rect)
    (hq : qsDescE isPathTag refIcon = some rp)
    (hf : findPathWithSvgE heartSvg = some (heartEl, some svgEl))
    (hrr : env.refRect = some rr) (hhr : env.heartRect = some hr)
    (hsr : env.heartSvgRect = some sr)
    (h1 : 0 < rr.w) (h2 : 0 < rr.h) (h3 : 0 < hr.w) (h4 : 0 < hr.h)
    (h5 : 0 < sr.w) (h6 : 0 < sr.h) (hp : 0 < prec) :
    appliedScaleOf (matchIconScale env (some refIcon) (some heartSvg) prec) =
      some (spec_appliedScale rr.w rr.h hr.w hr.h (strokeWidthOf env) (nonScalingOf env)
        sr.w sr.h prec) := by
  have p1 : pickDim env.refRect env.refBBox Rect.w = some rr.w := by
    simp [pickDim, hrr, h1.ne']
  have p2 : pickDim env.refRect env.refBBox Rect.h = some rr.h := by
    simp [pickDim, hrr, h2.ne']
  have p3 : pickDim env.heartRect env.heartBBox Rect.w = some hr.w := by
    simp [pickDim, hhr, h3.ne']
  have p4 : pickDim env.heartRect env.heartBBox Rect.h = some hr.h := by
    simp [pickDim, hhr, h4.ne']
  have hz : (rr.w == 0 || hr.w == 0 || rr.h == 0 || hr.h == 0) = false := by
    simp [h1.ne', h2.ne', h3.ne', h4.ne']
  rw [matchIconScale_success env refIcon heartSvg rp heartEl svgEl prec rr.w rr.h hr.w hr.h
    hq hf p1 p2 p3 p4 hz]
  simp only [appliedScaleOf, Option.map_some', hsr]
  rw [codeFinalScale_eq_spec rr.w rr.h hr.w hr.h (strokeWidthOf env) (vectorEffectOf env) sr prec
    h5 h6 hp]
  rfl

theorem matchScale_clamped_scale_witness :
    appliedScaleOf (matchIconScale cexEnv (some cexRef) (some c1Heart) 3) =
      some (spec_appliedScale 20 20 20 20 (strokeWidthOf cexEnv) (nonScalingOf cexEnv) 24 24 3) :=
  matchScale_clamped_scale cexEnv cexRef c1Heart (.mk "path" [] none none .nil)
    (.mk "path" [] none none .nil) c1Heart 3 ⟨0, 0, 20, 20⟩ ⟨0, 0, 20, 20⟩ ⟨0, 0, 24, 24⟩
    rfl rfl rfl rfl rfl (by norm_num) (by norm_num) (by norm_num) (by norm_num)
    (by norm_num) (by norm_num) (by norm_num)

/-- C6: for every reference/new-icon pair with positive finite rendered
widths and heights, the desired scale is the larger of the two ratios — one
uniform factor, fed into the clamped-and-rounded applied scale — so before
clamping the new icon is at least as large as the reference in both
dimensions. -/
theorem matchScale_desired_scale_max (env : MeasEnv) (refIcon heartSvg rp heartEl svgEl : Elem)
    (prec : ℕ) (rr hr sr : Rect)
    (hq : qsDescE isPathTag refIcon = some rp)
    (hf : findPathWithSvgE heartSvg = some (heartEl, some svgEl))
    (hrr : env.refRect = some rr) (hhr : env.heartRect = some hr)
    (hsr : env.heartSvgRect = some sr)
    (h1 : 0 < rr.w) (h2 : 0 < rr.h) (h3 : 0 < hr.w) (h4 : 0 < hr.h)
    (h5 : 0 < sr.w) (h6 : 0 < sr.h) (hp : 0 < prec) :
    appliedScaleOf (matchIconScale env (some refIcon) (some heartSvg) prec) =
      some (spec_round (min (spec_desiredScale rr.w rr.h hr.w hr.h)
        (min (spec_axisMax sr.w hr.w (strokeWidthOf env)
            (spec_desiredScale rr.w rr.h hr.w hr.h) (nonScalingOf env))
          (spec_axisMax sr.h hr.h (strokeWidthOf env)
            (spec_desiredScale rr.w rr.h hr.w hr.h) (nonScalingOf env)))) prec) ∧
    rr.w ≤ hr.w * spec_desiredScale rr.w rr.h hr.w hr.h ∧
    rr.h ≤ hr.h * spec_desiredScale rr.w rr.h hr.w hr.h := by
  refine ⟨?_, ?_, ?_⟩
  · have p1 : pickDim env.refRect env.refBBox Rect.w = some rr.w := by
      simp [pickDim, hrr, h1.ne']
    have p2 : pickDim env.refRect env.refBBox Rect.h = some rr.h := by
      simp [pickDim, hrr, h2.ne']
    have p3 : pickDim env.heartRect env.heartBBox Rect.w = some hr.w := by
      simp [pickDim, hhr, h3.ne']
    have p4 : pickDim env.heartRect env.heartBBox Rect.h = some hr.h := by
      simp [pickDim, hhr, h4.ne']
    have hz : (rr.w == 0 || hr.w == 0 || rr.h == 0 || hr.h == 0) = false := by
      simp [h1.ne', h2.ne', h3.ne', h4.ne']
    rw [matchIconScale_success env refIcon heartSvg rp heartEl svgEl prec rr.w rr.h hr.w hr.h
      hq hf p1 p2 p3 p4 hz]
    simp only [appliedScaleOf, Option.map_some', hsr]
    rw [codeFinalScale_eq_spec rr.w rr.h hr.w hr.h (strokeWidthOf env) (vectorEffectOf env)
      sr prec h5 h6 hp]
    rfl
  · have hle : rr.w / hr.w ≤ spec_desiredScale rr.w rr.h hr.w hr.h := le_max_left _ _
    have := (div_le_iff₀ h3).mp hle
    linarith
  · have hle : rr.h / hr.h ≤ spec_desiredScale rr.w rr.h hr.w hr.h := le_max_right _ _
    have := (div_le_iff₀ h4).mp hle
    linarith

theorem matchScale_desired_scale_max_witness :
    (appliedScaleOf (matchIconScale cexEnv (some cexRef) (some c1Heart) 3) =
      some (spec_round (min (spec_desiredScale 20 20 20 20)
        (min (spec_axisMax 24 20 (strokeWidthOf cexEnv) (spec_desiredScale 20 20 20 20)
            (nonScalingOf cexEnv))
          (spec_axisMax 24 20 (strokeWidthOf cexEnv) (spec_desiredScale 20 20 20 20)
            (nonScalingOf cexEnv)))) 3)) ∧
    (20 : ℚ) ≤ 20 * spec_desiredScale 20 20 20 20 ∧
    (20 : ℚ) ≤ 20 * spec_desiredScale 20 20 20 20 :=
  matchScale_desired_scale_max cexEnv cexRef c1Heart (.mk "path" [] none none .nil)
    (.mk "path" [] none none .nil) c1Heart 3 ⟨0, 0, 20, 20⟩ ⟨0, 0, 20, 20⟩ ⟨0, 0, 24, 24⟩
    rfl rfl rfl rfl rfl (by norm_num) (by norm_num) (by norm_num) (by norm_num)
    (by norm_num) (by norm_num) (by norm_num)

/-- C5: the Geometry Matcher's pivot is the center of the new icon's declared
coordinate viewport when one is declared (and parses), else the center of the
path's geometry-only bounding box, else `(12, 12)`; the applied transform is
`translate(cx cy) scale(s) translate(-cx -cy)` prepended before any
pre-existing local transform on the primitive; for a declared `0 0 24 24`
viewport the pivot is `(12, 12)` for any computed scale value. -/
theorem matchScale_pivot (env : MeasEnv) (refIcon heartSvg rp heartEl svgEl : Elem) (d : ℕ)
    (cx cy sc : ℚ) (ex : String)
    (hq : qsDescE isPathTag refIcon = some rp)
    (hf : findPathWithSvgE heartSvg = some (heartEl, some svgEl))
    (ha : (matchIconScale env (some refIcon) (some heartSvg) d).applied = some (cx, cy, sc, ex)) :
    (∀ vb mx my w h, svgEl.getAttr "viewBox" = some vb →
        parseViewBox vb = some (mx, my, w, h) → cx = mx + w / 2 ∧ cy = my + h / 2) ∧
    (svgEl.getAttr "viewBox" = none → env.heartBBox = none → cx = 12 ∧ cy = 12) ∧
    (∀ bb, svgEl.getAttr "viewBox" = none → env.heartBBox = some bb →
        cx = bb.x + bb.w / 2 ∧ cy = bb.y + bb.h / 2) ∧
    (svgEl.getAttr "viewBox" = some "0 0 24 24" → cx = 12 ∧ cy = 12) ∧
    ex = (heartEl.getAttr "transform").getD "" ∧
    (matchIconScale env (some refIcon) (some heartSvg) d).heartOut =
      some (setFirstPathTransform
        (encodeTransform cx cy sc ++ (if ex == "" then "" else " " ++ ex)) heartSvg) := by
  cases hp1 : pickDim env.refRect env.refBBox Rect.w with
  | none => simp [matchIconScale, hq, hf, hp1, noChangeR] at ha
  | some a =>
  cases hp2 : pickDim env.refRect env.refBBox Rect.h with
  | none => simp [matchIconScale, hq, hf, hp1, hp2, noChangeR] at ha
  | some b =>
  cases hp3 : pickDim env.heartRect env.heartBBox Rect.w with
  | none => simp [matchIconScale, hq, hf, hp1, hp2, hp3, noChangeR] at ha
  | some c =>
  cases hp4 : pickDim env.heartRect env.heartBBox Rect.h with
  | none => simp [matchIconScale, hq, hf, hp1, hp2, hp3, hp4, noChangeR] at ha
  | some e =>
  cases hz : (a == 0 || c == 0 || b == 0 || e == 0) with
  | true => simp [matchIconScale, hq, hf, hp1, hp2, hp3, hp4, hz, noChangeR] at ha
  | false =>
  rw [matchIconScale_success env refIcon heartSvg rp heartEl svgEl d a b c e
    hq hf hp1 hp2 hp3 hp4 hz] at ha ⊢
  simp only [Option.some_inj, Prod.mk.injEq] at ha
  obtain ⟨hcx, hcy, hsc, hex⟩ := ha
  subst hcx hcy hsc hex
  refine ⟨?_, ?_, ?_, ?_, rfl, ?_⟩
  · intro vb mx my w h hvb hparse
    by_cases hvbe : vb = ""
    · rw [hvbe, parseViewBox_empty] at hparse
      exact absurd hparse (by simp)
    · have hb : (vb == "") = false := beq_false_of_ne hvbe
      simp [codePivot, hvb, hb, hparse]
  · intro hvb hbb
    simp [codePivot, hvb, hbb]
  · intro bb hvb hbb
    simp [codePivot, hvb, hbb]
  · intro hvb
    have hparse : parseViewBox "0 0 24 24" = some (0, 0, 24, 24) := by
      simp +decide [parseViewBox, splitWSComma, splitWSCommaAux, jsNumber, jsIsSpace, digitsVal]
    have hb : (("0 0 24 24" : String) == "") = false := by decide
    constructor <;> simp [codePivot, hvb, hb, hparse] <;> norm_num
  · simp

theorem matchScale_pivot_witness :
    (matchIconScale cexEnv (some cexRef) (some c1Heart) 3).applied = some (12, 12, 1, "") ∧
    ((12 : ℚ) = 12 ∧ (12 : ℚ) = 12) := by
  have ha : (matchIconScale cexEnv (some cexRef) (some c1Heart) 3).applied =
      some (12, 12, 1, "") := by
    simp +decide [matchIconScale, cexEnv, cexRef, c1Heart, qsDescE, findPathWithSvgE,
      findPathCtxE, findPathCtxL, isPathTag, isSvgTag, asciiLower, asciiLowerChar, findFirstE,
      findFirstL, pickDim, strokeWidthOf, vectorEffectOf, codeFinalScale, codePivot, parseViewBox,
      splitWSComma, splitWSCommaAux, jsNumber, jsIsSpace, digitsVal, jsRound, Elem.getAttr,
      Elem.attrs, Elem.children, lookupKV]
    norm_num [inf_eq_min, min_def]
  exact ⟨ha, (matchScale_pivot cexEnv cexRef c1Heart (.mk "path" [] none none .nil)
    (.mk "path" [] none none .nil) c1Heart 3 12 12 1 "" rfl rfl ha).2.2.2.1 rfl⟩

/-! ## DOM traversal lemmas -/

def liftNP (qn : String → List (String × String) → Bool) (e : Elem) : Bool := qn e.tag e.attrs

mutual
theorem countAllP_cloneNodeE (qn : String → List (String × String) → Bool) :
    ∀ e : Elem, countAllPE (liftNP qn) (cloneNodeE e) = countAllPE (liftNP qn) e
  | .mk t a sc oc cs => by
    simp [cloneNodeE, countAllPE, liftNP, Elem.tag, Elem.attrs, countAllP_cloneNodeL qn cs]
theorem countAllP_cloneNodeL (qn : String → List (String × String) → Bool) :
    ∀ l : ElemList, countAllPL (liftNP qn) (cloneNodeL l) = countAllPL (liftNP qn) l
  | .nil => by simp [cloneNodeL]
  | .cons c cs => by
    simp [cloneNodeL, countAllPL, countAllP_cloneNodeE qn c, countAllP_cloneNodeL qn cs]
end

mutual
theorem findFirstE_eq_none_iff (p : Elem → Bool) :
    ∀ e : Elem, findFirstE p e = none ↔ countAllPE p e = 0
  | .mk t a sc oc cs => by
    by_cases h : p (.mk t a sc oc cs)
    · simp [findFirstE, countAllPE, h]
    · simp [findFirstE, countAllPE, h, findFirstL_eq_none_iff p cs]
theorem findFirstL_eq_none_iff (p : Elem → Bool) :
    ∀ l : ElemList, findFirstL p l = none ↔ countAllPL p l = 0
  | .nil => by simp [findFirstL, countAllPL]
  | .cons c cs => by
    cases hc : findFirstE p c with
    | some r =>
      have hne : countAllPE p c ≠ 0 := fun h0 => by
        have h1 := (findFirstE_eq_none_iff p c).mpr h0
        rw [hc] at h1
        exact Option.noConfusion h1
      simp only [findFirstL, countAllPL, hc]
      constructor
      · intro h1
        exact Option.noConfusion h1
      · intro h1
        omega
    | none => simp [findFirstL, countAllPL, hc, (findFirstE_eq_none_iff p c).mp hc,
        findFirstL_eq_none_iff p cs]
end

mutual
theorem countAllP_insertInL (p : Elem → Bool) (nw : Elem)
    (qn : String → List (String × String) → Bool) :
    ∀ (l : ElemList) (l2 : ElemList), insertInL p nw l = some l2 →
      countAllPL (liftNP qn) l2 = countAllPL (liftNP qn) l + countAllPE (liftNP qn) nw
  | .nil, l2 => by simp [insertInL]
  | .cons c cs, l2 => by
    intro h
    by_cases hp : p c
    · simp only [insertInL, hp, if_true] at h
      cases h
      simp [countAllPL]
      omega
    · simp only [insertInL, hp, Bool.false_eq_true, if_false] at h
      cases hin : insertInsideE p nw c with
      | some c2 =>
        rw [hin] at h
        cases h
        simp [countAllPL, countAllP_insertInsideE p nw qn c c2 hin]
        omega
      | none =>
        rw [hin] at h
        simp only [Option.map_eq_some'] at h
        obtain ⟨cs2, hcs2, rfl⟩ := h
        simp [countAllPL, countAllP_insertInL p nw qn cs cs2 hcs2]
        omega
theorem countAllP_insertInsideE (p : Elem → Bool) (nw : Elem)
    (qn : String → List (String × String) → Bool) :
    ∀ (e : Elem) (e2 : Elem), insertInsideE p nw e = some e2 →
      countAllPE (liftNP qn) e2 = countAllPE (liftNP qn) e + countAllPE (liftNP qn) nw
  | .mk t a sc oc cs, e2 => by
    intro h
    simp only [insertInsideE, Option.map_eq_some'] at h
    obtain ⟨cs2, hcs2, rfl⟩ := h
    simp [countAllPE, countAllP_insertInL p nw qn cs cs2 hcs2, liftNP, Elem.tag, Elem.attrs]
    omega
end

theorem countAllP_insertBeforeFirstE (p : Elem → Bool) (nw : Elem)
    (qn : String → List (String × String) → Bool)
    (e e2 : Elem) (h : insertBeforeFirstE p nw e = some e2) :
    countAllPE (liftNP qn) e2 = countAllPE (liftNP qn) e + countAllPE (liftNP qn) nw := by
  unfold insertBeforeFirstE at h
  by_cases hp : p e
  · simp [hp] at h
  · simp only [hp, Bool.false_eq_true, if_false] at h
    exact countAllP_insertInsideE p nw qn e e2 h

mutual
theorem insertInL_isSome_congr (p : Elem → Bool) (nw nw2 : Elem) :
    ∀ l : ElemList, (insertInL p nw l).isSome = (insertInL p nw2 l).isSome
  | .nil => by simp [insertInL]
  | .cons c cs => by
    by_cases hp : p c
    · simp [insertInL, hp]
    · simp only [insertInL, hp, Bool.false_eq_true, if_false]
      cases h1 : insertInsideE p nw c with
      | some c2 =>
        have h2 := insertInsideE_isSome_congr p nw nw2 c
        rw [h1] at h2
        cases h3 : insertInsideE p nw2 c with
        | some c3 => simp
        | none => rw [h3] at h2; simp at h2
      | none =>
        have h2 := insertInsideE_isSome_congr p nw nw2 c
        rw [h1] at h2
        cases h3 : insertInsideE p nw2 c with
        | some c3 => rw [h3] at h2; simp at h2
        | none =>
          simp only [Option.isSome_map']
          exact insertInL_isSome_congr p nw nw2 cs
theorem insertInsideE_isSome_congr (p : Elem → Bool) (nw nw2 : Elem) :
    ∀ e : Elem, (insertInsideE p nw e).isSome = (insertInsideE p nw2 e).isSome
  | .mk t a sc oc cs => by
    simp only [insertInsideE, Option.isSome_map']
    exact insertInL_isSome_congr p nw nw2 cs
end

theorem insertBeforeFirstE_isSome_congr (p : Elem → Bool) (nw nw2 : Elem) (e : Elem) :
    (insertBeforeFirstE p nw e).isSome = (insertBeforeFirstE p nw2 e).isSome := by
  unfold insertBeforeFirstE
  by_cases hp : p e
  · simp [hp]
  · simp only [hp, Bool.false_eq_true, if_false]
    exact insertInsideE_isSome_congr p nw nw2 e

mutual
theorem countAllP_findFirstE_le (p q : Elem → Bool) :
    ∀ (e c : Elem), findFirstE p e = some c → countAllPE q c ≤ countAllPE q e
  | .mk t a sc oc cs, c => by
    intro h
    by_cases hp : p (.mk t a sc oc cs)
    · simp only [findFirstE, hp, if_true, Option.some_inj] at h
      exact le_of_eq (congrArg _ h.symm)
    · simp only [findFirstE, hp, Bool.false_eq_true, if_false] at h
      calc countAllPE q c ≤ countAllPL q cs := countAllP_findFirstL_le p q cs c h
        _ ≤ countAllPE q (.mk t a sc oc cs) := by simp [countAllPE]
theorem countAllP_findFirstL_le (p q : Elem → Bool) :
    ∀ (l : ElemList) (c : Elem), findFirstL p l = some c → countAllPE q c ≤ countAllPL q l
  | .nil, c => by simp [findFirstL]
  | .cons e cs, c => by
    intro h
    cases he : findFirstE p e with
    | some r =>
      rw [findFirstL, he] at h
      cases h
      calc countAllPE q c ≤ countAllPE q e := countAllP_findFirstE_le p q e c he
        _ ≤ countAllPL q (.cons e cs) := by simp [countAllPL]
    | none =>
      rw [findFirstL, he] at h
      calc countAllPE q c ≤ countAllPL q cs := countAllP_findFirstL_le p q cs c h
        _ ≤ countAllPL q (.cons e cs) := by simp [countAllPL]
end

mutual
theorem countAllP_mapAttrsAllE_le (f : String → List (String × String) → List (String × String))
    (qn : String → List (String × String) → Bool)
    (hf : ∀ t a, qn t (f t a) = true → qn t a = true) :
    ∀ e : Elem, countAllPE (liftNP qn) (mapAttrsAllE f e) ≤ countAllPE (liftNP qn) e
  | .mk t a sc oc cs => by
    have h1 := countAllP_mapAttrsAllL_le f qn hf cs
    simp only [mapAttrsAllE, countAllPE, liftNP, Elem.tag, Elem.attrs]
    by_cases h : qn t (f t a) = true
    · simp only [h, hf t a h, if_true]
      omega
    · have hb : (qn t (f t a)) = false := by
        cases hq : qn t (f t a)
        · rfl
        · exact absurd hq h
      simp only [hb, Bool.false_eq_true, if_false]
      omega
theorem countAllP_mapAttrsAllL_le (f : String → List (String × String) → List (String × String))
    (qn : String → List (String × String) → Bool)
    (hf : ∀ t a, qn t (f t a) = true → qn t a = true) :
    ∀ l : ElemList, countAllPL (liftNP qn) (mapAttrsAllL f l) ≤ countAllPL (liftNP qn) l
  | .nil => by simp [mapAttrsAllL]
  | .cons c cs => by
    have h1 := countAllP_mapAttrsAllE_le f qn hf c
    have h2 := countAllP_mapAttrsAllL_le f qn hf cs
    simp only [mapAttrsAllL, countAllPL]
    omega
end

theorem countAllP_snocL (q : Elem → Bool) :
    ∀ (l : ElemList) (x : Elem), countAllPL q (snocL l x) = countAllPL q l + countAllPE q x
  | .nil, x => by simp [snocL, countAllPL]
  | .cons c cs, x => by
    simp [snocL, countAllPL, countAllP_snocL q cs x]
    omega

mutual
theorem countAllP_updFirstL (p : Elem → Bool) (g : Elem → Elem)
    (qn : String → List (String × String) → Bool)
    (hg : ∀ x, countAllPE (liftNP qn) (g x) = countAllPE (liftNP qn) x) :
    ∀ (l l2 : ElemList), updFirstL p g l = some l2 →
      countAllPL (liftNP qn) l2 = countAllPL (liftNP qn) l
  | .nil, l2 => by simp [updFirstL]
  | .cons c cs, l2 => by
    intro h
    by_cases hp : p c
    · simp only [updFirstL, hp, if_true] at h
      cases h
      simp [countAllPL, hg c]
    · simp only [updFirstL, hp, Bool.false_eq_true, if_false] at h
      cases hin : updFirstInsideE p g c with
      | some c2 =>
        rw [hin] at h
        cases h
        simp [countAllPL, countAllP_updFirstInsideE p g qn hg c c2 hin]
      | none =>
        rw [hin] at h
        simp only [Option.map_eq_some'] at h
        obtain ⟨cs2, hcs2, rfl⟩ := h
        simp [countAllPL, countAllP_updFirstL p g qn hg cs cs2 hcs2]
theorem countAllP_updFirstInsideE (p : Elem → Bool) (g : Elem → Elem)
    (qn : String → List (String × String) → Bool)
    (hg : ∀ x, countAllPE (liftNP qn) (g x) = countAllPE (liftNP qn) x) :
    ∀ (e e2 : Elem), updFirstInsideE p g e = some e2 →
      countAllPE (liftNP qn) e2 = countAllPE (liftNP qn) e
  | .mk t a sc oc cs, e2 => by
    intro h
    simp only [updFirstInsideE, Option.map_eq_some'] at h
    obtain ⟨cs2, hcs2, rfl⟩ := h
    simp [countAllPE, countAllP_updFirstL p g qn hg cs cs2 hcs2, liftNP, Elem.tag, Elem.attrs]
end

theorem tag_cloneNodeE (e : Elem) : (cloneNodeE e).tag = e.tag := by
  cases e with
  | mk t a sc oc cs => simp [cloneNodeE, Elem.tag]

theorem getAttr_cloneNodeE (e : Elem) (k : String) : (cloneNodeE e).getAttr k = e.getAttr k := by
  cases e with
  | mk t a sc oc cs => simp [cloneNodeE, Elem.getAttr, Elem.attrs]

theorem children_cloneNodeE (e : Elem) : (cloneNodeE e).children = cloneNodeL e.children := by
  cases e with
  | mk t a sc oc cs => simp [cloneNodeE, Elem.children]

theorem tag_mapAttrsDesc (f : String → List (String × String) → List (String × String))
    (e : Elem) : (mapAttrsDesc f e).tag = e.tag := by
  cases e with
  | mk t a sc oc cs => simp [mapAttrsDesc, Elem.tag]

theorem getAttr_mapAttrsDesc (f : String → List (String × String) → List (String × String))
    (e : Elem) (k : String) : (mapAttrsDesc f e).getAttr k = e.getAttr k := by
  cases e with
  | mk t a sc oc cs => simp [mapAttrsDesc, Elem.getAttr, Elem.attrs]

theorem children_mapAttrsDesc (f : String → List (String × String) → List (String × String))
    (e : Elem) : (mapAttrsDesc f e).children = mapAttrsAllL f e.children := by
  cases e with
  | mk t a sc oc cs => simp [mapAttrsDesc, Elem.children]

theorem tag_sanitizeRootClasses (e : Elem) : (sanitizeRootClasses e).tag = e.tag := by
  unfold sanitizeRootClasses
  cases h : e.getAttr "class" with
  | none => rfl
  | some s => simp [tag_setAttr]

theorem getAttr_sanitizeRootClasses_ne (e : Elem) (k : String) (hk : k ≠ "class") :
    (sanitizeRootClasses e).getAttr k = e.getAttr k := by
  unfold sanitizeRootClasses
  cases h : e.getAttr "class" with
  | none => rfl
  | some s => simp [getAttr_setAttr_ne _ _ _ _ hk]

theorem children_sanitizeRootClasses (e : Elem) :
    (sanitizeRootClasses e).children = e.children := by
  unfold sanitizeRootClasses
  cases h : e.getAttr "class" with
  | none => rfl
  | some s => simp [children_setAttr]

theorem getAttr_replaceFirstDescE (p : Elem → Bool) (nw e : Elem) (k : String) :
    (replaceFirstDescE p nw e).getAttr k = e.getAttr k := by
  cases e with
  | mk t a sc oc cs =>
    unfold replaceFirstDescE
    cases h : updFirstL p (fun _ => nw) cs with
    | some cs2 => simp [h, Elem.getAttr, Elem.attrs]
    | none => simp [h]

theorem tag_replaceFirstDescE (p : Elem → Bool) (nw e : Elem) :
    (replaceFirstDescE p nw e).tag = e.tag := by
  cases e with
  | mk t a sc oc cs =>
    unfold replaceFirstDescE
    cases h : updFirstL p (fun _ => nw) cs with
    | some cs2 => simp [h, Elem.tag]
    | none => simp [h]

theorem getAttr_snocChild (e x : Elem) (k : String) :
    (snocChild e x).getAttr k = e.getAttr k := by
  cases e with
  | mk t a sc oc cs => simp [snocChild, Elem.getAttr, Elem.attrs]

theorem tag_snocChild (e x : Elem) : (snocChild e x).tag = e.tag := by
  cases e with
  | mk t a sc oc cs => simp [snocChild, Elem.tag]

theorem children_snocChild (e x : Elem) : (snocChild e x).children = snocL e.children x := by
  cases e with
  | mk t a sc oc cs => simp [snocChild, Elem.children]

theorem tag_sanitizeUpToHrefs (cart : Elem) : (sanitizeUpToHrefs cart).tag = cart.tag := by
  unfold sanitizeUpToHrefs
  dsimp only
  split
  · simp [tag_mapAttrsDesc, tag_removeAttr, tag_sanitizeRootClasses, tag_setAttr, tag_cloneNodeE]
  · simp [tag_mapAttrsDesc, tag_sanitizeRootClasses, tag_setAttr, tag_cloneNodeE]

theorem tag_sanitizeClone (cart : Elem) : (sanitizeClone cart).tag = cart.tag := by
  unfold sanitizeClone
  dsimp only
  split
  · simp [tag_setAttr, tag_sanitizeUpToHrefs]
  · simp [tag_setAttr, tag_setCursorPointer, tag_setOnclickNav, tag_sanitizeUpToHrefs]

theorem getAttr_sanitizeUpToHrefs_class (cart : Elem) :
    (sanitizeUpToHrefs cart).getAttr "class" =
      ((cloneNodeE cart).setAttr "id" wishlistButtonId |> sanitizeRootClasses).getAttr "class" := by
  unfold sanitizeUpToHrefs
  dsimp only
  split
  · simp [getAttr_mapAttrsDesc, getAttr_removeAttr_ne _ _ _ (by decide : ("class" : String) ≠ "href")]
  · simp [getAttr_mapAttrsDesc]

theorem sanitizeClone_class (cart : Elem) :
    (sanitizeClone cart).getAttr "class" =
      match cart.getAttr "class" with
      | none => none
      | some s => some (joinSpace ((dedupKeepFirst (splitWsTokens s)).filter
          (fun t => !cartTokenB t))) := by
  have hbase : ((cloneNodeE cart).setAttr "id" wishlistButtonId).getAttr "class" =
      cart.getAttr "class" := by
    rw [getAttr_setAttr_ne _ _ _ _ (by decide : ("class" : String) ≠ "id"), getAttr_cloneNodeE]
  have hmid : (sanitizeUpToHrefs cart).getAttr "class" =
      match cart.getAttr "class" with
      | none => none
      | some s => some (joinSpace ((dedupKeepFirst (splitWsTokens s)).filter
          (fun t => !cartTokenB t))) := by
    rw [getAttr_sanitizeUpToHrefs_class]
    unfold sanitizeRootClasses
    rw [hbase]
    cases h : cart.getAttr "class" with
    | none => simp [hbase, h]
    | some s => simp [hbase, h, getAttr_setAttr_self]
  unfold sanitizeClone
  dsimp only
  by_cases hA : ((sanitizeUpToHrefs cart).tag == "A") = true
  · rw [if_pos hA, getAttr_setAttr_ne _ _ _ _ (by decide : ("class" : String) ≠ "aria-label"),
      getAttr_setAttr_ne _ _ _ _ (by decide : ("class" : String) ≠ "href"), hmid]
  · rw [if_neg hA, getAttr_setAttr_ne _ _ _ _ (by decide : ("class" : String) ≠ "aria-label"),
      getAttr_setOnclickNav, getAttr_setCursorPointer, hmid]

theorem getAttr_sanitizeUpToHrefs_ne (cart : Elem) (k : String)
    (hk1 : k ≠ "class") (hk2 : k ≠ "href") :
    (sanitizeUpToHrefs cart).getAttr k =
      ((cloneNodeE cart).setAttr "id" wishlistButtonId).getAttr k := by
  unfold sanitizeUpToHrefs
  dsimp only
  split
  · rw [getAttr_mapAttrsDesc, getAttr_removeAttr_ne _ _ _ hk2, getAttr_mapAttrsDesc,
      getAttr_mapAttrsDesc, getAttr_sanitizeRootClasses_ne _ _ hk1]
  · rw [getAttr_mapAttrsDesc, getAttr_mapAttrsDesc, getAttr_mapAttrsDesc,
      getAttr_sanitizeRootClasses_ne _ _ hk1]

theorem sanitizeClone_id (cart : Elem) :
    (sanitizeClone cart).getAttr "id" = some wishlistButtonId := by
  have hup : (sanitizeUpToHrefs cart).getAttr "id" = some wishlistButtonId := by
    rw [getAttr_sanitizeUpToHrefs_ne cart "id" (by decide) (by decide), getAttr_setAttr_self]
  unfold sanitizeClone
  dsimp only
  by_cases hA : ((sanitizeUpToHrefs cart).tag == "A") = true
  · rw [if_pos hA, getAttr_setAttr_ne _ _ _ _ (by decide : ("id" : String) ≠ "aria-label"),
      getAttr_setAttr_ne _ _ _ _ (by decide : ("id" : String) ≠ "href"), hup]
  · rw [if_neg hA, getAttr_setAttr_ne _ _ _ _ (by decide : ("id" : String) ≠ "aria-label"),
      getAttr_setOnclickNav, getAttr_setCursorPointer, hup]

theorem sanitizeClone_href_of_A (cart : Elem) (hA : cart.tag = "A") :
    (sanitizeClone cart).getAttr "href" = some wishlistPageUrl := by
  unfold sanitizeClone
  dsimp only
  have hA2 : ((sanitizeUpToHrefs cart).tag == "A") = true := by
    rw [tag_sanitizeUpToHrefs, hA]
    simp
  rw [if_pos hA2, getAttr_setAttr_ne _ _ _ _ (by decide : ("href" : String) ≠ "aria-label"),
    getAttr_setAttr_self]

theorem getAttr_wishlistElementOf (env : MeasEnv) (cart : Elem) (k : String) :
    (wishlistElementOf env cart).getAttr k = (sanitizeClone cart).getAttr k := by
  unfold wishlistElementOf
  dsimp only
  split
  · rw [getAttr_replaceFirstDescE]
  · rw [getAttr_snocChild]

theorem length_filter_not_add_countP {α : Type} (p : α → Bool) (l : List α) :
    l.length = (l.filter (fun a => !p a)).length + l.countP p := by
  induction l with
  | nil => simp
  | cons a t ih =>
    by_cases h : p a <;> simp [h, List.countP_cons, ih] <;> omega

/-- C4: the element built and inserted by `inject` has, at its root, exactly
the class-list tokens whose lowercase form contains `cart` removed, and every
other token preserved in its original order (the ordered-set `classList` view
of the class attribute); the counting identity makes the "exactly N removed"
explicit. -/
theorem inject_sanitizes_cart_classes (env : MeasEnv) (cart : Elem) :
    ((wishlistElementOf env cart).getAttr "class" =
      match cart.getAttr "class" with
      | none => none
      | some _ => some (joinSpace ((classListOf cart).filter (fun t => !cartTokenB t)))) ∧
    (classListOf cart).length =
      ((classListOf cart).filter (fun t => !cartTokenB t)).length +
        (classListOf cart).countP cartTokenB := by
  constructor
  · rw [getAttr_wishlistElementOf, sanitizeClone_class]
    cases h : cart.getAttr "class" with
    | none => rfl
    | some s => simp [classListOf, h]
  · exact length_filter_not_add_countP cartTokenB (classListOf cart)

/-- C7: for an anchor whose root is a hyperlink element with a target
containing `/cart`, the root of the clone inserted by `inject` has its link
target set to the configured wishlist destination, which never contains the
substring `/cart`. -/
theorem inject_rewrites_cart_href (env : MeasEnv) (cart : Elem) (h0 : String)
    (hA : cart.tag = "A") (hh : cart.getAttr "href" = some h0)
    (hc : strContains h0 "/cart" = true) :
    (wishlistElementOf env cart).getAttr "href" = some wishlistPageUrl ∧
      strContains wishlistPageUrl "/cart" = false := by
  refine ⟨?_, by decide⟩
  rw [getAttr_wishlistElementOf]
  exact sanitizeClone_href_of_A cart hA

theorem inject_rewrites_cart_href_witness :
    (wishlistElementOf emptyEnv (.mk "A" [("href", "/x/cart")] none none .nil)).getAttr "href" =
        some wishlistPageUrl ∧
      strContains wishlistPageUrl "/cart" = false :=
  inject_rewrites_cart_href emptyEnv (.mk "A" [("href", "/x/cart")] none none .nil)
    "/x/cart" rfl rfl (by decide)

/-! ## Fallback-path lemmas -/

theorem lookupKV_class_stripCartIds (t : String) (a : List (String × String)) :
    lookupKV "class" (stripCartIds t a) = lookupKV "class" a := by
  unfold stripCartIds
  cases h : lookupKV "id" a with
  | none => rfl
  | some v =>
    by_cases hc : strContains v "cart" = true
    · simp [hc, lookup_removeKV_ne _ _ _ (by decide : ("class" : String) ≠ "id")]
    · simp [hc]

theorem lookupKV_class_stripCartData (t : String) (a : List (String × String)) :
    lookupKV "class" (stripCartData t a) = lookupKV "class" a := by
  unfold stripCartData
  by_cases h : (lookupKV "data-cart-status" a).isSome
  · simp [h, lookup_removeKV_ne _ _ _ (by decide : ("class" : String) ≠ "data-cart-status")]
  · simp [h]

theorem lookupKV_class_stripCartHrefs (t : String) (a : List (String × String)) :
    lookupKV "class" (stripCartHrefs t a) = lookupKV "class" a := by
  unfold stripCartHrefs
  by_cases h : hrefCartP t a = true
  · simp [h, lookup_removeKV_ne _ _ _ (by decide : ("class" : String) ≠ "href")]
  · simp [h]

theorem isIconNP_stripCartIds (t : String) (a : List (String × String)) :
    isIconNP t (stripCartIds t a) = isIconNP t a := by
  unfold isIconNP
  rw [lookupKV_class_stripCartIds]

theorem isIconNP_stripCartData (t : String) (a : List (String × String)) :
    isIconNP t (stripCartData t a) = isIconNP t a := by
  unfold isIconNP
  rw [lookupKV_class_stripCartData]

theorem isIconNP_stripCartHrefs (t : String) (a : List (String × String)) :
    isIconNP t (stripCartHrefs t a) = isIconNP t a := by
  unfold isIconNP
  rw [lookupKV_class_stripCartHrefs]

theorem children_sanitizeUpToHrefs (cart : Elem) :
    (sanitizeUpToHrefs cart).children =
      mapAttrsAllL stripCartHrefs (mapAttrsAllL stripCartData
        (mapAttrsAllL stripCartIds (cloneNodeL cart.children))) := by
  unfold sanitizeUpToHrefs
  dsimp only
  split <;>
    simp [children_mapAttrsDesc, children_removeAttr, children_sanitizeRootClasses,
      children_setAttr, children_cloneNodeE]

theorem children_sanitizeClone (cart : Elem) :
    (sanitizeClone cart).children = (sanitizeUpToHrefs cart).children := by
  unfold sanitizeClone
  dsimp only
  split <;>
    simp [children_setAttr, children_setCursorPointer, children_setOnclickNav]

theorem isIconLike_eq_liftNP : isIconLike = liftNP isIconNP := by
  funext e
  cases e with
  | mk t a sc oc cs => rfl

theorem qsDesc_icon_sanitizeClone_none (cart : Elem)
    (hno : qsDescE isIconLike cart = none) :
    qsDescE isIconLike (sanitizeClone cart) = none := by
  unfold qsDescE at hno ⊢
  rw [children_sanitizeClone, children_sanitizeUpToHrefs]
  rw [findFirstL_eq_none_iff] at hno ⊢
  rw [isIconLike_eq_liftNP] at hno ⊢
  have h1 : countAllPL (liftNP isIconNP) (cloneNodeL cart.children) =
      countAllPL (liftNP isIconNP) cart.children := countAllP_cloneNodeL _ _
  have h2 := countAllP_mapAttrsAllL_le stripCartIds isIconNP
    (fun t a h => by rw [isIconNP_stripCartIds] at h; exact h) (cloneNodeL cart.children)
  have h3 := countAllP_mapAttrsAllL_le stripCartData isIconNP
    (fun t a h => by rw [isIconNP_stripCartData] at h; exact h)
    (mapAttrsAllL stripCartIds (cloneNodeL cart.children))
  have h4 := countAllP_mapAttrsAllL_le stripCartHrefs isIconNP
    (fun t a h => by rw [isIconNP_stripCartHrefs] at h; exact h)
    (mapAttrsAllL stripCartData (mapAttrsAllL stripCartIds (cloneNodeL cart.children)))
  omega

theorem builtHeart_fallback (env : MeasEnv) (cart : Elem)
    (hno : qsDescE isIconLike cart = none) :
    builtHeart env cart = createHeartSvg none := by
  unfold builtHeart
  dsimp only
  rw [hno]
  cases hw : qsDescE isIconLike (sanitizeClone cart) with
  | none => rfl
  | some w => rfl

theorem wishlistElementOf_fallback (env : MeasEnv) (cart : Elem)
    (hno : qsDescE isIconLike cart = none) :
    wishlistElementOf env cart = snocChild (sanitizeClone cart) (createHeartSvg none) := by
  unfold wishlistElementOf
  dsimp only
  rw [hno, builtHeart_fallback env cart hno]
  cases hw : qsDescE isIconLike (sanitizeClone cart) with
  | none => rfl
  | some w => rfl

/-- C8: for an anchor subtree with no icon-like descendant, `inject` appends
exactly one fallback icon, built with no style reference, to the inserted
element, logs the warning, and never invokes the Geometry Matcher on that
path (`scalerInvoked = false`), so no transform attribute is set on the
fallback's primitive. -/
theorem inject_fallback_icon (env : MeasEnv) (sel : Elem → Bool) (doc cart d1 : Elem)
    (hfind : findFirstE sel doc = some cart)
    (hmark : hasMarkerId doc = false)
    (hno : qsDescE isIconLike cart = none)
    (hins : insertBeforeFirstE sel (wishlistElementOf env cart) doc = some d1) :
    inject env sel doc = ⟨d1, [msgNoIcon, msgInjected, msgSkipScale], false⟩ ∧
    wishlistElementOf env cart = snocChild (sanitizeClone cart) (createHeartSvg none) ∧
    countAllPL isIconLike (wishlistElementOf env cart).children = 1 ∧
    (qsDescE isPathTag (createHeartSvg none)).map (fun p => p.getAttr "transform") =
      some none := by
  have hsan := qsDesc_icon_sanitizeClone_none cart hno
  refine ⟨?_, wishlistElementOf_fallback env cart hno, ?_, by rfl⟩
  · unfold inject
    rw [hfind, hmark]
    simp only [Bool.false_eq_true, if_false]
    rw [hins, hno]
    unfold buildLogs
    rw [hsan, hno]
    rfl
  · rw [wishlistElementOf_fallback env cart hno, children_snocChild, countAllP_snocL]
    have h0 : countAllPL isIconLike (sanitizeClone cart).children = 0 := by
      have := qsDesc_icon_sanitizeClone_none cart hno
      unfold qsDescE at this
      exact (findFirstL_eq_none_iff _ _).mp this
    rw [h0]
    rfl

def w8cart : Elem := .mk "BUTTON" [] none none .nil
def w8doc : Elem := .mk "DIV" [] none none (.cons w8cart .nil)
def w8sel : Elem → Bool := fun e => e.tag == "BUTTON"
def w8d1 : Elem := (insertBeforeFirstE w8sel (wishlistElementOf emptyEnv w8cart) w8doc).getD w8doc

theorem inject_fallback_icon_witness :
    inject emptyEnv w8sel w8doc = ⟨w8d1, [msgNoIcon, msgInjected, msgSkipScale], false⟩ :=
  (inject_fallback_icon emptyEnv w8sel w8doc w8cart w8d1 rfl rfl rfl rfl).1

/-! ## Idempotency lemmas -/

theorem isMarkerElem_eq_liftNP : isMarkerElem = liftNP markerNP := by
  funext e
  cases e with
  | mk t a sc oc cs => rfl

theorem countAllPE_decompose (q : Elem → Bool) (e : Elem) :
    countAllPE q e = (if q e then 1 else 0) + countAllPL q e.children := by
  cases e with
  | mk t a sc oc cs => rfl

theorem hasMarkerId_false_iff (doc : Elem) :
    hasMarkerId doc = false ↔ countAllPE isMarkerElem doc = 0 := by
  unfold hasMarkerId
  rw [← findFirstE_eq_none_iff]
  cases h : findFirstE isMarkerElem doc <;> simp

theorem markerNP_stripCartIds (t : String) (a : List (String × String)) :
    markerNP t (stripCartIds t a) = true → markerNP t a = true := by
  unfold markerNP stripCartIds
  cases h : lookupKV "id" a with
  | none => simp [h]
  | some v =>
    by_cases hc : strContains v "cart" = true
    · simp [hc, lookup_removeKV_self]
    · simp [hc, h]

theorem markerNP_stripCartData (t : String) (a : List (String × String)) :
    markerNP t (stripCartData t a) = markerNP t a := by
  unfold markerNP stripCartData
  by_cases h : (lookupKV "data-cart-status" a).isSome
  · simp [h, lookup_removeKV_ne _ _ _ (by decide : ("id" : String) ≠ "data-cart-status")]
  · simp [h]

theorem markerNP_stripCartHrefs (t : String) (a : List (String × String)) :
    markerNP t (stripCartHrefs t a) = markerNP t a := by
  unfold markerNP stripCartHrefs
  by_cases h : hrefCartP t a = true
  · simp [h, lookup_removeKV_ne _ _ _ (by decide : ("id" : String) ≠ "href")]
  · simp [h]

mutual
theorem countAllP_replaceL (p : Elem → Bool) (nw : Elem)
    (qn : String → List (String × String) → Bool) :
    ∀ (l l2 : ElemList), updFirstL p (fun _ => nw) l = some l2 →
      countAllPL (liftNP qn) l2 ≤ countAllPL (liftNP qn) l + countAllPE (liftNP qn) nw
  | .nil, l2 => by simp [updFirstL]
  | .cons c cs, l2 => by
    intro h
    by_cases hp : p c
    · simp only [updFirstL, hp, if_true] at h
      cases h
      simp only [countAllPL]
      omega
    · simp only [updFirstL, hp, Bool.false_eq_true, if_false] at h
      cases hin : updFirstInsideE p (fun _ => nw) c with
      | some c2 =>
        rw [hin] at h
        cases h
        have := countAllP_replaceInsideE p nw qn c c2 hin
        simp only [countAllPL]
        omega
      | none =>
        rw [hin] at h
        simp only [Option.map_eq_some'] at h
        obtain ⟨cs2, hcs2, rfl⟩ := h
        have := countAllP_replaceL p nw qn cs cs2 hcs2
        simp only [countAllPL]
        omega
theorem countAllP_replaceInsideE (p : Elem → Bool) (nw : Elem)
    (qn : String → List (String × String) → Bool) :
    ∀ (e e2 : Elem), updFirstInsideE p (fun _ => nw) e = some e2 →
      countAllPE (liftNP qn) e2 ≤ countAllPE (liftNP qn) e + countAllPE (liftNP qn) nw
  | .mk t a sc oc cs, e2 => by
    intro h
    simp only [updFirstInsideE, Option.map_eq_some'] at h
    obtain ⟨cs2, hcs2, rfl⟩ := h
    have := countAllP_replaceL p nw qn cs cs2 hcs2
    simp only [countAllPE, liftNP, Elem.tag, Elem.attrs]
    omega
end

theorem markerNP_count_setAttr_transform (v : String) (x : Elem) :
    countAllPE (liftNP markerNP) (x.setAttr "transform" v) =
      countAllPE (liftNP markerNP) x := by
  cases x with
  | mk t a sc oc cs =>
    simp only [Elem.setAttr, countAllPE, liftNP, Elem.tag, Elem.attrs, markerNP,
      lookup_setKV_ne _ _ _ _ (by decide : ("id" : String) ≠ "transform")]

theorem markerNP_count_setFirstPathTransform (v : String) (e : Elem) :
    countAllPE (liftNP markerNP) (setFirstPathTransform v e) =
      countAllPE (liftNP markerNP) e := by
  cases e with
  | mk t a sc oc cs =>
    unfold setFirstPathTransform
    cases h : updFirstL isPathTag (fun pe => pe.setAttr "transform" v) cs with
    | none => simp only [h]
    | some cs2 =>
      have h2 := countAllP_updFirstL isPathTag (fun pe => pe.setAttr "transform" v) markerNP
        (fun x => markerNP_count_setAttr_transform v x) cs cs2 h
      simp only [h, countAllPE, h2, liftNP, Elem.tag, Elem.attrs]

theorem markerNP_count_createHeartSvg (r : Option Elem) :
    countAllPE (liftNP markerNP) (createHeartSvg r) = 0 := by
  cases r with
  | none => decide
  | some ref =>
    unfold createHeartSvg
    rw [countAllPE_decompose, children_setAttr]
    have hbit : liftNP markerNP (heartTemplate.setAttr "class" (jsAttrString (ref.getAttr "class"))) = false := by
      cases htp : heartTemplate.setAttr "class" (jsAttrString (ref.getAttr "class")) with
      | mk t a sc oc cs =>
        simp only [liftNP, Elem.tag, Elem.attrs, markerNP]
        have : lookupKV "id" a = lookupKV "id" heartTemplate.attrs := by
          have h2 : a = (heartTemplate.setAttr "class" (jsAttrString (ref.getAttr "class"))).attrs := by
            rw [htp]
            rfl
          rw [h2]
          show lookupKV "id" (setKV "class" _ heartTemplate.attrs) = _
          exact lookup_setKV_ne _ _ _ _ (by decide : ("id" : String) ≠ "class")
        rw [this]
        decide
    rw [hbit]
    decide

theorem markerNP_count_sanitizeClone_children (cart : Elem)
    (h : countAllPL (liftNP markerNP) cart.children = 0) :
    countAllPL (liftNP markerNP) (sanitizeClone cart).children = 0 := by
  rw [children_sanitizeClone, children_sanitizeUpToHrefs]
  have h1 : countAllPL (liftNP markerNP) (cloneNodeL cart.children) = 0 := by
    rw [countAllP_cloneNodeL]
    exact h
  have h2 := countAllP_mapAttrsAllL_le stripCartIds markerNP
    (fun t a hx => markerNP_stripCartIds t a hx) (cloneNodeL cart.children)
  have h3 := countAllP_mapAttrsAllL_le stripCartData markerNP
    (fun t a hx => by rw [markerNP_stripCartData] at hx; exact hx)
    (mapAttrsAllL stripCartIds (cloneNodeL cart.children))
  have h4 := countAllP_mapAttrsAllL_le stripCartHrefs markerNP
    (fun t a hx => by rw [markerNP_stripCartHrefs] at hx; exact hx)
    (mapAttrsAllL stripCartData (mapAttrsAllL stripCartIds (cloneNodeL cart.children)))
  omega

theorem markerNP_count_heartOut_getD (env : MeasEnv) (ri h0 : Elem) (d : ℕ)
    (hc : countAllPE (liftNP markerNP) h0 = 0) :
    countAllPE (liftNP markerNP)
      ((matchIconScale env (some ri) (some h0) d).heartOut.getD h0) = 0 := by
  obtain ⟨-, hdisj⟩ := matchIconScale_aon env (some ri) (some h0) d
  rcases hdisj with ⟨hout, -⟩ | ⟨hx, cx, cy, sc, ex, hxe, -, hout⟩
  · rw [hout]
    simpa using hc
  · cases hxe
    rw [hout]
    simp only [Option.getD_some]
    rw [markerNP_count_setFirstPathTransform]
    exact hc

theorem markerNP_count_builtHeart (env : MeasEnv) (cart : Elem) :
    countAllPE (liftNP markerNP) (builtHeart env cart) = 0 := by
  unfold builtHeart
  dsimp only
  cases hri : qsDescE isIconLike cart with
  | none =>
    cases hw : qsDescE isIconLike (sanitizeClone cart) <;>
      simp [markerNP_count_createHeartSvg]
  | some ri =>
    exact markerNP_count_heartOut_getD env ri _ 3
      (by cases hw : qsDescE isIconLike (sanitizeClone cart) <;>
        simp [markerNP_count_createHeartSvg])

theorem markerNP_count_wishlistElementOf (env : MeasEnv) (cart : Elem)
    (h : countAllPL (liftNP markerNP) cart.children = 0) :
    countAllPE (liftNP markerNP) (wishlistElementOf env cart) = 1 := by
  have hbit : liftNP markerNP (wishlistElementOf env cart) = true := by
    have hid : (wishlistElementOf env cart).getAttr "id" = some wishlistButtonId := by
      rw [getAttr_wishlistElementOf, sanitizeClone_id]
    cases hwe : wishlistElementOf env cart with
    | mk t a sc oc cs =>
      rw [hwe] at hid
      simp only [liftNP, Elem.tag, Elem.attrs, markerNP]
      have : lookupKV "id" a = some wishlistButtonId := hid
      simp [this]
  have hsan := markerNP_count_sanitizeClone_children cart h
  have hch : countAllPL (liftNP markerNP) (wishlistElementOf env cart).children = 0 := by
    unfold wishlistElementOf
    dsimp only
    cases hw : qsDescE isIconLike (sanitizeClone cart) with
    | none =>
      cases hri : qsDescE isIconLike cart <;>
      · rw [children_snocChild, countAllP_snocL, hsan, markerNP_count_builtHeart]
    | some w0 =>
      cases hri : qsDescE isIconLike cart with
      | none => rw [children_snocChild, countAllP_snocL, hsan, markerNP_count_builtHeart]
      | some ri =>
        cases hsc : sanitizeClone cart with
        | mk t a sc oc cs =>
          unfold replaceFirstDescE
          have hcs : countAllPL (liftNP markerNP) cs = 0 := by
            have := hsan
            rw [hsc] at this
            exact this
          cases hupd : updFirstL isIconLike (fun _ => builtHeart env cart) cs with
          | none => simp only [hupd, Elem.children, hcs]
          | some cs2 =>
            simp only [hupd, Elem.children]
            have hle := countAllP_replaceL isIconLike (builtHeart env cart) markerNP cs cs2 hupd
            have hb := markerNP_count_builtHeart env cart
            omega
  rw [countAllPE_decompose, hbit, hch]
  simp

theorem inject_not_found (env : MeasEnv) (sel : Elem → Bool) (doc : Elem)
    (h : findFirstE sel doc = none) : inject env sel doc = ⟨doc, [msgNotFound], false⟩ := by
  unfold inject
  rw [h]

theorem inject_already (env : MeasEnv) (sel : Elem → Bool) (doc cart : Elem)
    (hf : findFirstE sel doc = some cart) (hm : hasMarkerId doc = true) :
    inject env sel doc = ⟨doc, [msgAlready], false⟩ := by
  unfold inject
  rw [hf, hm]
  rfl

theorem inject_insert_fail (env : MeasEnv) (sel : Elem → Bool) (doc cart : Elem)
    (hf : findFirstE sel doc = some cart) (hm : hasMarkerId doc = false)
    (hins : insertBeforeFirstE sel (wishlistElementOf env cart) doc = none) :
    inject env sel doc = ⟨doc, buildLogs cart ++ [msgInjectError], false⟩ := by
  unfold inject
  rw [hf, hm]
  simp only [Bool.false_eq_true, if_false]
  rw [hins]

theorem inject_insert_ok_doc (env : MeasEnv) (sel : Elem → Bool) (doc cart d1 : Elem)
    (hf : findFirstE sel doc = some cart) (hm : hasMarkerId doc = false)
    (hins : insertBeforeFirstE sel (wishlistElementOf env cart) doc = some d1) :
    (inject env sel doc).doc = d1 := by
  unfold inject
  rw [hf, hm]
  simp only [Bool.false_eq_true, if_false]
  rw [hins]
  cases h : qsDescE isIconLike cart <;> rfl

/-- C3: starting from a document with no element carrying the reserved
identity marker, `inject` either leaves the document unchanged or produces a
document with exactly one marker-carrying element; an immediately repeated
call performs no document mutation; and in general, whenever an element with
the reserved identity marker already exists in the document, `inject` returns
it unchanged (early return before any mutation). -/
theorem inject_idempotent (env env2 : MeasEnv) (sel : Elem → Bool) (doc : Elem)
    (h0 : countAllPE isMarkerElem doc = 0) :
    ((inject env sel doc).doc = doc ∨
      countAllPE isMarkerElem (inject env sel doc).doc = 1) ∧
    (inject env2 sel (inject env sel doc).doc).doc = (inject env sel doc).doc ∧
    (∀ (env3 : MeasEnv) (sel3 : Elem → Bool) (d : Elem), hasMarkerId d = true →
      (inject env3 sel3 d).doc = d) := by
  have general : ∀ (env3 : MeasEnv) (sel3 : Elem → Bool) (d : Elem), hasMarkerId d = true →
      (inject env3 sel3 d).doc = d := by
    intro env3 sel3 d hd
    cases hf : findFirstE sel3 d with
    | none => rw [inject_not_found env3 sel3 d hf]
    | some cart => rw [inject_already env3 sel3 d cart hf hd]
  have hmark : hasMarkerId doc = false := (hasMarkerId_false_iff doc).mpr h0
  cases hf : findFirstE sel doc with
  | none =>
    have r1 : inject env sel doc = ⟨doc, [msgNotFound], false⟩ := inject_not_found env sel doc hf
    rw [r1]
    refine ⟨Or.inl rfl, ?_, general⟩
    rw [inject_not_found env2 sel doc hf]
  | some cart =>
    have hcart : countAllPE isMarkerElem cart ≤ countAllPE isMarkerElem doc :=
      countAllP_findFirstE_le sel isMarkerElem doc cart hf
    have hcart0 : countAllPL (liftNP markerNP) cart.children = 0 := by
      rw [← isMarkerElem_eq_liftNP]
      rw [countAllPE_decompose] at hcart
      omega
    cases hins : insertBeforeFirstE sel (wishlistElementOf env cart) doc with
    | none =>
      have r1 : inject env sel doc = ⟨doc, buildLogs cart ++ [msgInjectError], false⟩ :=
        inject_insert_fail env sel doc cart hf hmark hins
      rw [r1]
      refine ⟨Or.inl rfl, ?_, general⟩
      have hins2 : insertBeforeFirstE sel (wishlistElementOf env2 cart) doc = none := by
        have hcongr := insertBeforeFirstE_isSome_congr sel
          (wishlistElementOf env2 cart) (wishlistElementOf env cart) doc
        rw [hins] at hcongr
        simpa [Option.isSome_iff_exists] using hcongr
      rw [inject_insert_fail env2 sel doc cart hf hmark hins2]
    | some d1 =>
      have r1 : (inject env sel doc).doc = d1 :=
        inject_insert_ok_doc env sel doc cart d1 hf hmark hins
      have hc1 : countAllPE isMarkerElem d1 = 1 := by
        rw [isMarkerElem_eq_liftNP]
        rw [countAllP_insertBeforeFirstE sel (wishlistElementOf env cart) markerNP doc d1 hins]
        rw [markerNP_count_wishlistElementOf env cart hcart0]
        rw [isMarkerElem_eq_liftNP] at h0
        omega
      have hmd1 : hasMarkerId d1 = true := by
        cases hh : hasMarkerId d1 with
        | false =>
          have := (hasMarkerId_false_iff d1).mp hh
          omega
        | true => rfl
      rw [r1]
      exact ⟨Or.inr hc1, general env2 sel d1 hmd1, general⟩

theorem inject_idempotent_witness :
    countAllPE isMarkerElem w8doc = 0 ∧
    ((inject emptyEnv w8sel w8doc).doc = w8doc ∨
      countAllPE isMarkerElem (inject emptyEnv w8sel w8doc).doc = 1) ∧
    (inject emptyEnv w8sel (inject emptyEnv w8sel w8doc).doc).doc =
      (inject emptyEnv w8sel w8doc).doc :=
  ⟨rfl, (inject_idempotent emptyEnv emptyEnv w8sel w8doc rfl).1,
    (inject_idempotent emptyEnv emptyEnv w8sel w8doc rfl).2.1⟩

end Swym
